import Mathlib

set_option maxRecDepth 16384

/-
Verification of the Audiolyze room / Stage coordination server
(src/backend/api/rooms.py) against its natural-language specification.

The Python module keeps all state in process memory: a registry of rooms
and users, with one WebSocket per user.  We shallow-embed the data model
and the message handlers as pure Lean functions over an explicit server
state.  Side effects (sends, broadcasts, file deletion, background
download tasks) are reified as an ordered list of Effect values, so the
theorems can talk about which envelopes are emitted and in what order.

Conventions of the embedding:
  - Python dicts keyed by id are association lists in insertion order;
    assignment to an existing key replaces in place, otherwise appends.
  - The room member dict (user id to aliased User object) is embedded as
    the list of member ids in insertion order; the user records live in
    the user registry of the server state, which models the Python
    aliasing of the shared User objects.
  - Wall-clock times and fresh uuid-derived ids are passed to handlers as
    explicit arguments (now, fid, ...).
  - Numeric playback fields are embedded as Int: no claim computes with
    them, they are only stored and forwarded.
  - Opaque JSON payloads (nowPlaying, aiParams) are embedded as
    Option String.
-/

-- ---------------------------------------------------------------------------
-- Data model (mirrors the dataclasses of rooms.py)
-- ---------------------------------------------------------------------------

/-- User dataclass of rooms.py (the ws field is represented by the id,
which is all a send needs in the embedding). -/
structure User where
  id : String
  name : String
  room_id : Option String := none
  is_host : Bool := false
  hosted_room_id : Option String := none
deriving Repr, DecidableEq

/-- ChatMessage dataclass of rooms.py. -/
structure ChatMessage where
  id : String
  user_id : String
  username : String
  text : String
  timestamp : Nat
  is_host : Bool := false
  is_system : Bool := false
deriving Repr, DecidableEq

/-- QueueItem dataclass of rooms.py. -/
structure QueueItem where
  id : String
  title : String
  source : String
  url : String
  added_by : String
  added_by_name : String
  status : String := "pending"
  ai_params : Option String := none
  soundcloud_url : Option String := none
  download_status : String := "pending"
deriving Repr, DecidableEq

/-- Suggestion dataclass of rooms.py. -/
structure Suggestion where
  id : String
  title : String
  source : String
  url : String
  user_id : String
  username : String
  status : String := "pending"
  timestamp : Nat := 0
deriving Repr, DecidableEq

/-- The audio_source dict stored on a room: type, url, title. -/
structure AudioSource where
  typ : String
  url : String
  title : String
deriving Repr, DecidableEq

/-- The last_sync dict stored on a room. -/
structure SyncState where
  currentTime : Int
  isPlaying : Bool
  playbackSpeed : Int
  timestamp : Nat
deriving Repr, DecidableEq

/-- The host_visualizer_state dict accumulated from discrete host actions. -/
structure VisState where
  shape : Option String := none
  environment : Option String := none
  audioTuning : Option String := none
  audioPlaybackTuning : Option String := none
  anaglyphEnabled : Option Bool := none
deriving Repr, DecidableEq

/-- Room dataclass of rooms.py; members holds the member ids in insertion
order, the user records themselves live in the server state registry. -/
structure Room where
  id : String
  name : String
  host_id : String
  host_name : String
  is_public : Bool := false
  now_playing : Option String := none
  created_at : Nat := 0
  members : List String := []
  messages : List ChatMessage := []
  audio_source : Option AudioSource := none
  ai_params : Option String := none
  last_sync : Option SyncState := none
  host_visualizer_state : Option VisState := none
  host_visiting : Bool := false
  queue : List QueueItem := []
  suggestions : List Suggestion := []
deriving Repr, DecidableEq

/-- The two process-wide registries of rooms.py: rooms and users. -/
structure ServerState where
  rooms : List (String × Room) := []
  users : List (String × User) := []
deriving Repr, DecidableEq

-- ---------------------------------------------------------------------------
-- Association-list operations for the Python dicts
-- ---------------------------------------------------------------------------

/-- Whitespace recognizer of str.strip. -/
def isSpaceChar (c : Char) : Bool :=
  c == ' ' || c == '\t' || c == '\n' || c == '\r'

/-- Embeds str.strip over the character list (kernel-computable). -/
def strip (s : String) : String :=
  String.mk (((s.data.dropWhile isSpaceChar).reverse.dropWhile isSpaceChar).reverse)

/-- Embeds str.startswith over the character lists (kernel-computable). -/
def startsWithLit (s pat : String) : Bool :=
  s.data.take pat.data.length == pat.data

/-- Split on the slash character, as str.split with a one-char separator;
an empty input yields one empty group, as in Python. -/
def splitSlash : List Char -> List (List Char)
  | [] => [[]]
  | c :: rest =>
    let r := splitSlash rest
    if c == '/' then [] :: r
    else
      match r with
      | [] => [[c]]
      | g :: gs => (c :: g) :: gs

/-- Dict lookup. -/
def lookupA {α : Type} (m : List (String × α)) (k : String) : Option α :=
  (m.find? (fun p => p.1 == k)).map (fun p => p.2)

/-- Dict assignment: replacing an existing key keeps its position, a new
key is appended (Python 3.7 dict semantics). -/
def insertA {α : Type} (m : List (String × α)) (k : String) (v : α) : List (String × α) :=
  if m.any (fun p => p.1 == k) then m.map (fun p => if p.1 == k then (k, v) else p)
  else m ++ [(k, v)]

/-- Dict removal (dict.pop with a default swallows the missing-key case). -/
def eraseA {α : Type} (m : List (String × α)) (k : String) : List (String × α) :=
  m.filter (fun p => p.1 != k)

/-- Member-dict assignment specialised to the id-list embedding: the value
assigned under an id key is that user, so only presence matters. -/
def memberAdd (ms : List String) (uid : String) : List String :=
  if ms.contains uid then ms else ms ++ [uid]

/-- Member-dict pop specialised to the id-list embedding. -/
def memberErase (ms : List String) (uid : String) : List String :=
  ms.filter (fun x => x != uid)

-- ---------------------------------------------------------------------------
-- Serialization helpers of rooms.py
-- ---------------------------------------------------------------------------

/-- Payload of the room summary dict built by room_summary. -/
structure RoomSummary where
  id : String
  name : String
  hostName : String
  hostId : String
  isPublic : Bool
  nowPlaying : Option String
  audienceCount : Nat
  createdAt : Nat
deriving Repr, DecidableEq

/-- room_summary of rooms.py; max(0, n - 1) is the truncated Nat
subtraction. -/
def room_summary (room : Room) : RoomSummary :=
  { id := room.id
    name := room.name
    hostName := room.host_name
    hostId := room.host_id
    isPublic := room.is_public
    nowPlaying := room.now_playing
    audienceCount := if room.host_visiting then room.members.length else room.members.length - 1
    createdAt := room.created_at }

/-- Payload of the full room dict built by room_full for joiners. -/
structure RoomFull where
  summary : RoomSummary
  audioSource : Option AudioSource
  aiParams : Option String
  lastSync : Option SyncState
  hostVisualizerState : Option VisState
  queue : List QueueItem
  suggestions : List Suggestion
deriving Repr, DecidableEq

/-- Pending-only view of the suggestion list, used by room_full and by the
queue_update payloads. -/
def pendingSuggestions (ss : List Suggestion) : List Suggestion :=
  ss.filter (fun s => s.status == "pending")

/-- room_full of rooms.py. -/
def room_full (room : Room) : RoomFull :=
  { summary := room_summary room
    audioSource := room.audio_source
    aiParams := room.ai_params
    lastSync := room.last_sync
    hostVisualizerState := room.host_visualizer_state
    queue := room.queue
    suggestions := pendingSuggestions room.suggestions }

/-- One entry of the member list built by member_list. -/
structure MemberInfo where
  id : String
  name : String
  isHost : Bool
deriving Repr, DecidableEq

/-- member_list of rooms.py: the member dict values, read through the user
registry because the Python dict holds aliases of the live User objects. -/
def member_list (st : ServerState) (room : Room) : List MemberInfo :=
  room.members.filterMap (fun mid =>
    (lookupA st.users mid).map (fun u => ⟨u.id, u.name, u.is_host⟩))

/-- Payload of the hosted_room_summary dict for the miniplayer. -/
structure HostedRoomSummary where
  id : String
  name : String
  nowPlaying : Option String
  audienceCount : Nat
  isPublic : Bool
deriving Repr, DecidableEq

/-- hosted_room_summary of rooms.py. -/
def hosted_room_summary (room : Room) : HostedRoomSummary :=
  { id := room.id
    name := room.name
    nowPlaying := room.now_playing
    audienceCount := if room.host_visiting then room.members.length else room.members.length - 1
    isPublic := room.is_public }

/-- Extra fields carried by a host_action payload; every field is optional
exactly as a JSON dict key may be missing. -/
structure ActionPayload where
  isPlaying : Option Bool := none
  currentTime : Option Int := none
  speed : Option Int := none
  shape : Option String := none
  environment : Option String := none
  audioTuning : Option String := none
  audioPlaybackTuning : Option String := none
  enabled : Option Bool := none
deriving Repr, DecidableEq

-- ---------------------------------------------------------------------------
-- Outbound envelopes and effects
-- ---------------------------------------------------------------------------

/-- Outbound envelope payloads, one constructor per type tag the module
emits, carrying the structured content of the JSON dict. -/
inductive Payload where
  | errorMsg (message : String)
  | usernameSet (name : String)
  | userRenamed (userId oldName newName : String) (members : List MemberInfo)
  | roomCreated (room : RoomSummary) (members : List MemberInfo) (messages : List ChatMessage)
  | roomJoined (room : RoomFull) (members : List MemberInfo) (messages : List ChatMessage)
      (hostedRoom : Option HostedRoomSummary)
  | userJoined (userId username : String) (members : List MemberInfo) (systemMessage : ChatMessage)
  | userLeft (userId username : String) (members : List MemberInfo) (systemMessage : ChatMessage)
  | returnedToRoom (room : RoomFull) (members : List MemberInfo) (messages : List ChatMessage)
      (needsAudioReload : Bool)
  | wentToMenu (hostedRoom : Option HostedRoomSummary)
  | hostedRoomEnded
  | leftRoom
  | roomClosed (reason : String)
  | roomUpdated (room : RoomSummary)
  | hostedRoomUpdated (hostedRoom : HostedRoomSummary)
  | audioSourceMsg (audioSource : Option AudioSource) (aiParams : Option String)
  | syncStateMsg (s : SyncState)
  | hostActionMsg (action : String) (payload : ActionPayload)
  | chatMessageMsg (message : ChatMessage)
  | queueUpdate (queue : List QueueItem) (suggestions : List Suggestion)
  | queuePlayNext (item : QueueItem)
  | newSuggestion (s : Suggestion)
  | suggestionSent (s : Suggestion)
  | suggestionResponse (suggestionId : String) (action : String)
deriving Repr, DecidableEq

/-- Observable side effects of a handler, in emission order.  send is a
direct send to one connection; broadcast / broadcastAudience expand to the
member set of the named room at dispatch time; broadcastPublicRooms goes
to every connected user and carries the listing snapshot computed at the
call; deleteFile is the blob-storage removal attempt of leave_room;
spawnPredownload is the fire-and-forget background download task. -/
inductive Effect where
  | send (uid : String) (p : Payload)
  | broadcast (rid : String) (excludeId : Option String) (p : Payload)
  | broadcastAudience (rid : String) (p : Payload)
  | broadcastPublicRooms (listing : List RoomSummary)
  | deleteFile (filename : String)
  | spawnPredownload (rid : String)
deriving Repr, DecidableEq

/-- Snapshot of the public rooms listing, as in list_public_rooms and
broadcast_public_rooms. -/
def publicListing (st : ServerState) : List RoomSummary :=
  st.rooms.filterMap (fun p => if p.2.is_public then some (room_summary p.2) else none)

-- ---------------------------------------------------------------------------
-- Pure queue operations (bodies of the queue_* handlers)
-- ---------------------------------------------------------------------------

/-- Tail statuses of the queue shape: ready, pending, analyzing. -/
def isTail (s : String) : Bool :=
  s == "ready" || s == "pending" || s == "analyzing"

/-- All items of a list have a tail status. -/
def tailOk (l : List QueueItem) : Bool :=
  l.all (fun x => isTail x.status)

/-- Queue shape invariant of the specification: the queue matches
played* playing? (ready|pending|analyzing)*. -/
def wellShaped : List QueueItem → Bool
  | [] => true
  | i :: rest =>
    if i.status == "played" then wellShaped rest
    else if i.status == "playing" then tailOk rest
    else isTail i.status && tailOk rest

/-- QueueItem built by the queue_add handler: the constructor call with
title clamped to 200 chars and the dataclass defaults. -/
def mk_queue_add_item (fid title source url uid uname : String)
    (soundcloudUrl : Option String) : QueueItem :=
  { id := fid
    title := title.take 200
    source := source
    url := url
    added_by := uid
    added_by_name := uname
    soundcloud_url := soundcloudUrl }

/-- Queue transform of queue_remove: drop the item with the given id
unless it is currently playing (a missing itemId matches nothing). -/
def queue_remove_queue (queue : List QueueItem) (itemId : Option String) : List QueueItem :=
  queue.filter (fun q => !(some q.id == itemId && q.status != "playing"))

/-- The id_to_item dict comprehension over the low-priority items: a
repeated id keeps its first position and last value, as in Python. -/
def dictInsert (m : List QueueItem) (x : QueueItem) : List QueueItem :=
  if m.any (fun y => y.id == x.id) then m.map (fun y => if y.id == x.id then x else y)
  else m ++ [x]

/-- Builds the id_to_item dict of queue_reorder. -/
def buildDict (low : List QueueItem) : List QueueItem :=
  low.foldl dictInsert []

/-- The reorder loop of queue_reorder: walk the requested id order, popping
each id found in the dict; returns the picked items and the leftover dict
values in their remaining order. -/
def pickOrder : List String → List QueueItem → List QueueItem × List QueueItem
  | [], m => ([], m)
  | oid :: rest, m =>
    match m.find? (fun y => y.id == oid) with
    | some x =>
      let r := pickOrder rest (m.filter (fun y => y.id != oid))
      (x :: r.1, r.2)
    | none => pickOrder rest m

/-- Queue transform of queue_reorder: all played items, then the first
three active items, then the low-priority items rearranged by the
requested id order with unmentioned items appended. -/
def queue_reorder_queue (queue : List QueueItem) (new_order : List String) : List QueueItem :=
  let active_queue := queue.filter (fun q => q.status != "played")
  let played := queue.filter (fun q => q.status == "played")
  let priority := active_queue.take 3
  let low_priority := active_queue.drop 3
  let r := pickOrder new_order (buildDict low_priority)
  played ++ priority ++ (r.1 ++ r.2)

/-- Queue transform of queue_update_item: the first item with the given id
takes the new status when that field is truthy, and the new ai_params when
that field is not None; later items are untouched (the loop breaks). -/
def queue_update_item_queue (queue : List QueueItem) (itemId : Option String)
    (newStatus aiP : Option String) : List QueueItem :=
  match queue with
  | [] => []
  | q :: rest =>
    if some q.id == itemId then
      let q1 := match newStatus with
        | some s => if s != "" then { q with status := s } else q
        | none => q
      let q2 := match aiP with
        | some a => { q1 with ai_params := some a }
        | none => q1
      q2 :: rest
    else q :: queue_update_item_queue rest itemId newStatus aiP

/-- First loop of queue_advance: mark the first playing item as played. -/
def markPlayed : List QueueItem → List QueueItem
  | [] => []
  | i :: rest =>
    if i.status == "playing" then { i with status := "played" } :: rest
    else i :: markPlayed rest

/-- Second loop of queue_advance: promote the first ready or pending item
to playing, returning the updated list and the promoted item. -/
def promoteNext : List QueueItem → List QueueItem × Option QueueItem
  | [] => ([], none)
  | i :: rest =>
    if i.status == "ready" || i.status == "pending" then
      ({ i with status := "playing" } :: rest, some { i with status := "playing" })
    else
      let r := promoteNext rest
      (i :: r.1, r.2)

/-- Queue transform of queue_advance. -/
def queue_advance_queue (queue : List QueueItem) : List QueueItem × Option QueueItem :=
  promoteNext (markPlayed queue)

/-- QueueItem built by respond_suggestion on approval. -/
def mk_approved_item (fid : String) (s : Suggestion) : QueueItem :=
  { id := fid
    title := s.title
    source := s.source
    url := s.url
    added_by := s.user_id
    added_by_name := s.username
    soundcloud_url := if s.source == "soundcloud" then some s.url else none }

/-- Loop of respond_suggestion: the first pending suggestion with the given
id transitions to approved or rejected; on approve a queue item is built;
the suggester id is reported for the notification.  Returns the new
suggestion list, the optional queue append, and the optional notification
target (user id and suggestion id). -/
def respondFirst (fid action : String) (sid : Option String) :
    List Suggestion → List Suggestion × Option QueueItem × Option (String × String)
  | [] => ([], none, none)
  | s :: rest =>
    if some s.id == sid && s.status == "pending" then
      let s1 := { s with status := if action == "approve" then "approved" else "rejected" }
      let qi := if action == "approve" then some (mk_approved_item fid s) else none
      (s1 :: rest, qi, some (s.user_id, s.id))
    else
      let r := respondFirst fid action sid rest
      (s :: r.1, r.2.1, r.2.2)

-- ---------------------------------------------------------------------------
-- Chat append (body of the chat_message handler)
-- ---------------------------------------------------------------------------

/-- Append of the chat_message handler: push the message, then truncate to
the most recent 100 when the length exceeds 200. -/
def chatAppend (msgs : List ChatMessage) (m : ChatMessage) : List ChatMessage :=
  let l := msgs ++ [m]
  if l.length > 200 then l.drop (l.length - 100) else l

-- ---------------------------------------------------------------------------
-- Pre-download task (predownload_priority_tracks)
-- ---------------------------------------------------------------------------

/-- Per-item skip conditions of the download loop: not a soundcloud item,
falsy soundcloud_url, or a url already under the local blob route. -/
def wantsDownload (item : QueueItem) : Bool :=
  item.source == "soundcloud" &&
  (match item.soundcloud_url with | some s => s != "" | none => false) &&
  !(item.url != "" && startsWithLit item.url "/soundcloud/file/")

/-- Selection of predownload_priority_tracks as written in the source: the
first three items whose status is playing or priority, filtered by the
skip conditions. -/
def predownload_selection (queue : List QueueItem) : List QueueItem :=
  ((queue.filter (fun item => item.status == "playing" || item.status == "priority")).take 3).filter
    wantsDownload

/-- Priority region as the specification defines it: the first three
non-played items of the queue. -/
def spec_priority_region (queue : List QueueItem) : List QueueItem :=
  (queue.filter (fun item => item.status != "played")).take 3

/-- Pre-download selection as the specification describes it: the items of
the priority region that are remote, have a resolvable remote url and are
not yet localized. -/
def spec_predownload_selection (queue : List QueueItem) : List QueueItem :=
  (spec_priority_region queue).filter wantsDownload

/-- Outcome of one download request, abstracting the HTTP interaction of
the download loop with the external collaborator. -/
inductive DownloadOutcome where
  | httpOk (ok : Bool) (file_url : String)
  | httpStatus (code : Nat)
  | timeout
  | exn
deriving Repr, DecidableEq

/-- Per-item body of the download loop of predownload_priority_tracks,
with the HTTP interaction abstracted as a DownloadOutcome: a 200 response
with ok rewrites the item url to the served file url; every other outcome
only logs.  No effect list entry is ever produced by this loop. -/
def apply_download (item : QueueItem) (r : DownloadOutcome) : QueueItem × List Effect :=
  match r with
  | .httpOk ok file_url => if ok then ({ item with url := file_url }, []) else (item, [])
  | .httpStatus _ => (item, [])
  | .timeout => (item, [])
  | .exn => (item, [])

-- ---------------------------------------------------------------------------
-- Room cleanup helpers (leave_visited_room, destroy_hosted_room, leave_room)
-- ---------------------------------------------------------------------------

/-- Final path segment of an upload url, as in url.split. -/
def lastSegment (url : String) : String :=
  if url == "" then "" else String.mk ((splitSlash url.data).getLastD [])

/-- leave_visited_room of rooms.py: remove the user from the room they are
visiting, append the system chat line, broadcast user_left, refresh the
public listing when the room is public, then clear the user fields. -/
def leave_visited_room (st : ServerState) (uid sysId : String) (now : Nat) :
    ServerState × List Effect :=
  match lookupA st.users uid with
  | none => (st, [])
  | some u =>
    match u.room_id with
    | none => (st, [])
    | some rid =>
      match lookupA st.rooms rid with
      | none => (st, [])
      | some room =>
        let sys_msg : ChatMessage :=
          { id := sysId, user_id := "system", username := "System",
            text := u.name ++ " left the stage", timestamp := now, is_system := true }
        let room1 := { room with members := memberErase room.members uid,
                                 messages := room.messages ++ [sys_msg] }
        let st1 : ServerState := { st with rooms := insertA st.rooms rid room1 }
        let effs :=
          [Effect.broadcast rid none (Payload.userLeft uid u.name (member_list st1 room1) sys_msg)]
          ++ (if room1.is_public then [Effect.broadcastPublicRooms (publicListing st1)] else [])
        let u1 := { u with room_id := none, is_host := false }
        ({ st1 with users := insertA st1.users uid u1 }, effs)

/-- destroy_hosted_room of rooms.py: every member object has room_id and
is_host cleared and receives room_closed; the room leaves the registry;
the acting user drops hosted_room_id, room_id, is_host; the public listing
is refreshed.  Note that no blob-storage deletion happens on this path. -/
def destroy_hosted_room (st : ServerState) (uid : String) : ServerState × List Effect :=
  match lookupA st.users uid with
  | none => (st, [])
  | some u =>
    match u.hosted_room_id with
    | none => ({ st with users := insertA st.users uid ({ u with hosted_room_id := none }) }, [])
    | some rid =>
      match lookupA st.rooms rid with
      | none => ({ st with users := insertA st.users uid ({ u with hosted_room_id := none }) }, [])
      | some room =>
        let st1 := room.members.foldl (fun acc mid =>
          match lookupA acc.users mid with
          | some mu => { acc with users := insertA acc.users mid ({ mu with room_id := none, is_host := false }) }
          | none => acc) st
        let effs1 := room.members.map (fun mid =>
          Effect.send mid (Payload.roomClosed "Host ended the stage"))
        let st2 := { st1 with rooms := eraseA st1.rooms rid }
        let st3 := match lookupA st2.users uid with
          | some u2 => { st2 with users := insertA st2.users uid ({ u2 with hosted_room_id := none, room_id := none, is_host := false }) }
          | none => st2
        (st3, effs1 ++ [Effect.broadcastPublicRooms (publicListing st3)])

/-- leave_room of rooms.py: remove the user from their current room; if
they were the host or the room emptied, delete the uploaded media blob,
close the room for every remaining member and drop it from the registry;
otherwise append the system chat line and broadcast user_left.  Either way
the leaver finally receives left_room (the early returns on a missing room
skip that send, as in the source). -/
def leave_room (st : ServerState) (uid sysId : String) (now : Nat) :
    ServerState × List Effect :=
  match lookupA st.users uid with
  | none => (st, [])
  | some u =>
    match u.room_id with
    | none => ({ st with users := insertA st.users uid ({ u with room_id := none, is_host := false }) }, [])
    | some rid =>
      match lookupA st.rooms rid with
      | none => ({ st with users := insertA st.users uid ({ u with room_id := none, is_host := false }) }, [])
      | some room =>
        let room1 := { room with members := memberErase room.members uid }
        let was_host := room.host_id == uid
        let u1 := { u with is_host := false, room_id := none }
        let st1 : ServerState :=
          { rooms := insertA st.rooms rid room1, users := insertA st.users uid u1 }
        if was_host || room1.members.length == 0 then
          let delEffs := match room.audio_source with
            | some asrc => if asrc.typ == "upload" then [Effect.deleteFile (lastSegment asrc.url)] else []
            | none => []
          let st2 := room1.members.foldl (fun acc mid =>
            match lookupA acc.users mid with
            | some mu => { acc with users := insertA acc.users mid ({ mu with room_id := none, is_host := false }) }
            | none => acc) st1
          let closeEffs := room1.members.map (fun mid =>
            Effect.send mid (Payload.roomClosed "Host left the stage"))
          let st3 := { st2 with rooms := eraseA st2.rooms rid }
          let st4 := if was_host then
              (match lookupA st3.users uid with
               | some u2 => { st3 with users := insertA st3.users uid ({ u2 with hosted_room_id := none }) }
               | none => st3)
            else st3
          (st4, delEffs ++ closeEffs ++
            [Effect.broadcastPublicRooms (publicListing st4), Effect.send uid Payload.leftRoom])
        else
          let sys_msg : ChatMessage :=
            { id := sysId, user_id := "system", username := "System",
              text := u.name ++ " left the stage", timestamp := now, is_system := true }
          let room2 := { room1 with messages := room1.messages ++ [sys_msg] }
          let st2 : ServerState := { st1 with rooms := insertA st1.rooms rid room2 }
          let effs :=
            [Effect.broadcast rid none (Payload.userLeft uid u.name (member_list st2 room2) sys_msg)]
            ++ (if room2.is_public then [Effect.broadcastPublicRooms (publicListing st2)] else [])
          (st2, effs ++ [Effect.send uid Payload.leftRoom])

-- ---------------------------------------------------------------------------
-- Connection-level handlers
-- ---------------------------------------------------------------------------

/-- create_room handler: leave a visited room if it is distinct from the
hosted one, destroy a previously hosted room, then allocate the new room
with the acting user as sole member and host. -/
def create_room (st : ServerState) (uid : String) (nameOpt : Option String)
    (leaveSysId roomId : String) (now : Nat) : ServerState × List Effect :=
  match lookupA st.users uid with
  | none => (st, [])
  | some u =>
    let step1 : ServerState × List Effect :=
      match u.room_id with
      | some r =>
        if (lookupA st.rooms r).isSome && u.hosted_room_id != some r then
          leave_visited_room st uid leaveSysId now
        else (st, [])
      | none => (st, [])
    let step2 : ServerState × List Effect :=
      match (lookupA step1.1.users uid).bind (fun u1 => u1.hosted_room_id) with
      | some h =>
        if (lookupA step1.1.rooms h).isSome then
          let d := destroy_hosted_room step1.1 uid
          (d.1, step1.2 ++ d.2)
        else step1
      | none => step1
    match lookupA step2.1.users uid with
    | none => step2
    | some u2 =>
      let room_name := (nameOpt.getD (u2.name ++ "\x27s Stage")).take 50
      let room : Room := { id := roomId, name := room_name, host_id := uid,
                           host_name := u2.name, created_at := now, members := [uid] }
      let u3 := { u2 with room_id := some roomId, is_host := true, hosted_room_id := some roomId }
      let st3 : ServerState :=
        { rooms := insertA step2.1.rooms roomId room, users := insertA step2.1.users uid u3 }
      (st3, step2.2 ++
        [Effect.send uid (Payload.roomCreated (room_summary room) (member_list st3 room) [])])

/-- Visit branch of join_room: the acting user hosts a room distinct from
the target, so the hosted room flips host_visiting and drops the host from
its members, while the user joins the target as audience. -/
def join_room_visit (st : ServerState) (uid tid h leaveSysId sysId : String) (now : Nat) :
    ServerState × List Effect :=
  let pre : ServerState × List Effect :=
    match (lookupA st.users uid).bind (fun u => u.room_id) with
    | some r =>
      if r != h && (lookupA st.rooms r).isSome then leave_visited_room st uid leaveSysId now
      else (st, [])
    | none => (st, [])
  let st1 := pre.1
  match lookupA st1.users uid, lookupA st1.rooms h, lookupA st1.rooms tid with
  | some u1, some hosted, some target =>
    let hosted1 := { hosted with host_visiting := true,
                                 members := memberErase hosted.members uid }
    let st2 : ServerState := { st1 with rooms := insertA st1.rooms h hosted1 }
    let u2 := { u1 with room_id := some tid, is_host := false }
    let st3 : ServerState := { st2 with users := insertA st2.users uid u2 }
    let sys_msg : ChatMessage :=
      { id := sysId, user_id := "system", username := "System",
        text := u1.name ++ " joined the stage", timestamp := now, is_system := true }
    let target1 := { target with members := memberAdd target.members uid,
                                 messages := target.messages ++ [sys_msg] }
    let st4 : ServerState := { st3 with rooms := insertA st3.rooms tid target1 }
    let recent := target1.messages.drop (target1.messages.length - 50)
    (st4, pre.2 ++
      [Effect.send uid (Payload.roomJoined (room_full target1) (member_list st4 target1) recent
          (some (hosted_room_summary hosted1))),
       Effect.broadcast tid (some uid) (Payload.userJoined uid u1.name (member_list st4 target1) sys_msg),
       Effect.broadcastPublicRooms (publicListing st4)])
  | _, _, _ => (st1, pre.2)

/-- Normal branch of join_room: leave any current room first, then join the
target as a non-host member.  When the leave destroyed the target (a host
rejoining the room they occupy), the Python code mutates the no longer
registered object: the envelopes are computed from it but the registry
keeps no such room. -/
def join_room_normal (st : ServerState) (uid tid leaveSysId sysId : String) (now : Nat) :
    ServerState × List Effect :=
  let targetBefore := lookupA st.rooms tid
  let pre : ServerState × List Effect :=
    match (lookupA st.users uid).bind (fun u => u.room_id) with
    | some r => if (lookupA st.rooms r).isSome then leave_room st uid leaveSysId now else (st, [])
    | none => (st, [])
  let st1 := pre.1
  match lookupA st1.users uid with
  | none => (st1, pre.2)
  | some u1 =>
    let u2 := { u1 with room_id := some tid, is_host := false }
    let st2 : ServerState := { st1 with users := insertA st1.users uid u2 }
    let sys_msg : ChatMessage :=
      { id := sysId, user_id := "system", username := "System",
        text := u1.name ++ " joined the stage", timestamp := now, is_system := true }
    match lookupA st2.rooms tid with
    | some target =>
      let target1 := { target with members := memberAdd target.members uid,
                                   messages := target.messages ++ [sys_msg] }
      let st3 : ServerState := { st2 with rooms := insertA st2.rooms tid target1 }
      let recent := target1.messages.drop (target1.messages.length - 50)
      (st3, pre.2 ++
        [Effect.send uid (Payload.roomJoined (room_full target1) (member_list st3 target1) recent none),
         Effect.broadcast tid (some uid) (Payload.userJoined uid u1.name (member_list st3 target1) sys_msg),
         Effect.broadcastPublicRooms (publicListing st3)])
    | none =>
      match targetBefore with
      | some t0 =>
        let t1 := { t0 with members := memberAdd (memberErase t0.members uid) uid,
                            messages := t0.messages ++ [sys_msg] }
        let recent := t1.messages.drop (t1.messages.length - 50)
        (st2, pre.2 ++
          [Effect.send uid (Payload.roomJoined (room_full t1) (member_list st2 t1) recent none),
           Effect.broadcast tid (some uid) (Payload.userJoined uid u1.name (member_list st2 t1) sys_msg),
           Effect.broadcastPublicRooms (publicListing st2)])
      | none => (st2, pre.2)

/-- join_room handler: target must exist and be public; a host of a
different live room takes the visit branch, everyone else the normal
branch. -/
def join_room (st : ServerState) (uid : String) (targetId : Option String)
    (leaveSysId sysId : String) (now : Nat) : ServerState × List Effect :=
  match lookupA st.users uid with
  | none => (st, [])
  | some u =>
    match targetId.bind (fun tid => (lookupA st.rooms tid).map (fun t => (tid, t))) with
    | none => (st, [Effect.send uid (Payload.errorMsg "Room not found")])
    | some (tid, target) =>
      if !target.is_public then (st, [Effect.send uid (Payload.errorMsg "Room is private")])
      else
        match u.hosted_room_id with
        | some h =>
          if (lookupA st.rooms h).isSome && h != tid then
            join_room_visit st uid tid h leaveSysId sysId now
          else join_room_normal st uid tid leaveSysId sysId now
        | none => join_room_normal st uid tid leaveSysId sysId now

/-- go_to_menu handler: a live hosted room flips host_visiting and drops
the host from its members; a host whose room is gone first leaves any
visited room; a plain member just leaves. -/
def go_to_menu (st : ServerState) (uid leaveSysId : String) (now : Nat) :
    ServerState × List Effect :=
  match lookupA st.users uid with
  | none => (st, [])
  | some u =>
    match u.hosted_room_id with
    | some h =>
      match lookupA st.rooms h with
      | some hosted =>
        let hosted1 := { hosted with host_visiting := true,
                                     members := memberErase hosted.members uid }
        let u1 := { u with room_id := none, is_host := false }
        let st1 : ServerState :=
          { rooms := insertA st.rooms h hosted1, users := insertA st.users uid u1 }
        (st1, [Effect.send uid (Payload.wentToMenu (some (hosted_room_summary hosted1))),
               Effect.broadcastPublicRooms (publicListing st1)])
      | none =>
        if u.room_id.isSome && u.room_id != some h then
          let pre : ServerState × List Effect :=
            match u.room_id with
            | some r => if (lookupA st.rooms r).isSome then leave_visited_room st uid leaveSysId now
                        else (st, [])
            | none => (st, [])
          let st1 := pre.1
          let afterHosted : ServerState × Option HostedRoomSummary :=
            match lookupA st1.rooms h with
            | some hr =>
              let hr1 := { hr with host_visiting := true, members := memberErase hr.members uid }
              ({ st1 with rooms := insertA st1.rooms h hr1 }, some (hosted_room_summary hr1))
            | none => (st1, none)
          let st2 := afterHosted.1
          let st3 := match lookupA st2.users uid with
            | some u1 => { st2 with users := insertA st2.users uid ({ u1 with room_id := none, is_host := false }) }
            | none => st2
          (st3, pre.2 ++ [Effect.send uid (Payload.wentToMenu afterHosted.2),
                          Effect.broadcastPublicRooms (publicListing st3)])
        else
          let lr := leave_room st uid leaveSysId now
          (lr.1, lr.2 ++ [Effect.send uid Payload.leftRoom])
    | none =>
      let lr := leave_room st uid leaveSysId now
      (lr.1, lr.2 ++ [Effect.send uid Payload.leftRoom])

/-- end_room handler: destroy the hosted room, then confirm to the host. -/
def handle_end_room (st : ServerState) (uid : String) : ServerState × List Effect :=
  match lookupA st.users uid with
  | none => (st, [])
  | some u =>
    match u.hosted_room_id with
    | none => (st, [])
    | some h =>
      if (lookupA st.rooms h).isSome then
        let d := destroy_hosted_room st uid
        (d.1, d.2 ++ [Effect.send uid Payload.hostedRoomEnded])
      else (st, [])

/-- Cleanup sequence of the finally block on disconnect: leave a visited
room, destroy the hosted room, leave any remaining room, drop the user. -/
def disconnect_cleanup (st : ServerState) (uid sysId1 sysId2 : String) (now : Nat) :
    ServerState × List Effect :=
  let step1 : ServerState × List Effect :=
    match lookupA st.users uid with
    | some u =>
      match u.room_id, u.hosted_room_id with
      | some r, some h =>
        if r != h && (lookupA st.rooms r).isSome then leave_visited_room st uid sysId1 now
        else (st, [])
      | _, _ => (st, [])
    | none => (st, [])
  let step2 : ServerState × List Effect :=
    match (lookupA step1.1.users uid).bind (fun u => u.hosted_room_id) with
    | some h =>
      if (lookupA step1.1.rooms h).isSome then
        let d := destroy_hosted_room step1.1 uid
        (d.1, step1.2 ++ d.2)
      else step1
    | none => step1
  let step3 : ServerState × List Effect :=
    match (lookupA step2.1.users uid).bind (fun u => u.room_id) with
    | some r =>
      if (lookupA step2.1.rooms r).isSome then
        let l := leave_room step2.1 uid sysId2 now
        (l.1, step2.2 ++ l.2)
      else step2
    | none => step2
  ({ step3.1 with users := eraseA step3.1.users uid }, step3.2)

-- ---------------------------------------------------------------------------
-- Host-only message handlers
-- ---------------------------------------------------------------------------

/-- Target resolution shared by every host-only handler: the hosted room
if any, else the occupied room (the Python or-expression). -/
def targetRid (u : User) : Option String :=
  match u.hosted_room_id with
  | some h => some h
  | none => u.room_id

/-- Common guard of every host-only handler: resolve the target room and
require the sender to be its host; on any failure the handler is a silent
no-op.  rename_room and queue_reorder test a field before this guard in
the source; since both sides of such a commutation are no-ops the
observable behavior is identical. -/
def withHostRoom (st : ServerState) (uid : String)
    (k : User → String → Room → ServerState × List Effect) : ServerState × List Effect :=
  match lookupA st.users uid with
  | none => (st, [])
  | some u =>
    match targetRid u with
    | none => (st, [])
    | some rid =>
      match lookupA st.rooms rid with
      | none => (st, [])
      | some room =>
        if room.host_id == uid then k u rid room else (st, [])

/-- toggle_public handler. -/
def handle_toggle_public (st : ServerState) (uid : String) : ServerState × List Effect :=
  withHostRoom st uid (fun u rid room =>
    let room1 := { room with is_public := !room.is_public }
    let st1 : ServerState := { st with rooms := insertA st.rooms rid room1 }
    (st1,
      [Effect.broadcast rid none (Payload.roomUpdated (room_summary room1))]
      ++ (if u.room_id != some rid then
            [Effect.send uid (Payload.hostedRoomUpdated (hosted_room_summary room1))]
          else [])
      ++ [Effect.broadcastPublicRooms (publicListing st1)]))

/-- rename_room handler. -/
def handle_rename_room (st : ServerState) (uid name : String) : ServerState × List Effect :=
  let new_name := (strip name).take 50
  withHostRoom st uid (fun _ rid room =>
    if new_name == "" then (st, [])
    else
      let room1 := { room with name := new_name }
      let st1 : ServerState := { st with rooms := insertA st.rooms rid room1 }
      (st1, [Effect.broadcast rid none (Payload.roomUpdated (room_summary room1))]
        ++ (if room1.is_public then [Effect.broadcastPublicRooms (publicListing st1)] else [])))

/-- update_now_playing handler. -/
def handle_update_now_playing (st : ServerState) (uid : String) (nowPlaying : Option String) :
    ServerState × List Effect :=
  withHostRoom st uid (fun _ rid room =>
    let room1 := { room with now_playing := nowPlaying }
    let st1 : ServerState := { st with rooms := insertA st.rooms rid room1 }
    (st1, [Effect.broadcast rid none (Payload.roomUpdated (room_summary room1))]
      ++ (if room1.is_public then [Effect.broadcastPublicRooms (publicListing st1)] else [])))

/-- set_audio_source handler: replaces the audio source and AI params,
zeroes the sync snapshot, clears the visualizer state and tells the
audience. -/
def handle_set_audio_source (st : ServerState) (uid : String)
    (audioSource : Option AudioSource) (aiParams : Option String) (now : Nat) :
    ServerState × List Effect :=
  withHostRoom st uid (fun _ rid room =>
    let room1 := { room with audio_source := audioSource
                             ai_params := aiParams
                             last_sync := some { currentTime := 0, isPlaying := false, playbackSpeed := 1, timestamp := now }
                             host_visualizer_state := none }
    let st1 : ServerState := { st with rooms := insertA st.rooms rid room1 }
    (st1, [Effect.broadcastAudience rid (Payload.audioSourceMsg audioSource aiParams)]))

/-- sync_state handler: store the heartbeat and fan it to the audience. -/
def handle_sync_state (st : ServerState) (uid : String)
    (currentTime : Int) (isPlaying : Bool) (playbackSpeed : Int) (now : Nat) :
    ServerState × List Effect :=
  withHostRoom st uid (fun _ rid room =>
    let sync_data : SyncState :=
      { currentTime := currentTime, isPlaying := isPlaying,
        playbackSpeed := playbackSpeed, timestamp := now }
    let room1 := { room with last_sync := some sync_data }
    let st1 : ServerState := { st with rooms := insertA st.rooms rid room1 }
    (st1, [Effect.broadcastAudience rid (Payload.syncStateMsg sync_data)]))

/-- host_action handler: fold the action into the stored visualizer state
or sync slice, then forward the envelope to the audience verbatim. -/
def handle_host_action (st : ServerState) (uid action : String) (payload : ActionPayload)
    (now : Nat) : ServerState × List Effect :=
  withHostRoom st uid (fun _ rid room =>
    let room1 :=
      if action == "shape_change" || action == "environment_change"
          || action == "eq_change" || action == "anaglyph_toggle" then
        let vs := room.host_visualizer_state.getD {}
        let vs1 :=
          if action == "shape_change" then { vs with shape := payload.shape }
          else if action == "environment_change" then { vs with environment := payload.environment }
          else if action == "eq_change" then { vs with audioTuning := payload.audioTuning
                                                       audioPlaybackTuning := payload.audioPlaybackTuning }
          else { vs with anaglyphEnabled := payload.enabled }
        { room with host_visualizer_state := some vs1 }
      else room
    let room2 :=
      if action == "play_pause" then
        let ip := payload.isPlaying.getD false
        match room1.last_sync with
        | some ls => { room1 with last_sync := some { ls with isPlaying := ip, timestamp := now } }
        | none => { room1 with last_sync := some { currentTime := 0, isPlaying := ip, playbackSpeed := 1, timestamp := now } }
      else if action == "seek" then
        let ct := payload.currentTime.getD 0
        match room1.last_sync with
        | some ls => { room1 with last_sync := some { ls with currentTime := ct, timestamp := now } }
        | none => room1
      else if action == "speed_change" then
        let spd := payload.speed.getD 1
        match room1.last_sync with
        | some ls => { room1 with last_sync := some { ls with playbackSpeed := spd } }
        | none => room1
      else room1
    let st1 : ServerState := { st with rooms := insertA st.rooms rid room2 }
    (st1, [Effect.broadcastAudience rid (Payload.hostActionMsg action payload)]))

/-- queue_add handler. -/
def handle_queue_add (st : ServerState) (uid title source url : String)
    (soundcloudUrl : Option String) (fid : String) : ServerState × List Effect :=
  withHostRoom st uid (fun u rid room =>
    let item := mk_queue_add_item fid title source url uid u.name soundcloudUrl
    let room1 := { room with queue := room.queue ++ [item] }
    let st1 : ServerState := { st with rooms := insertA st.rooms rid room1 }
    (st1, [Effect.broadcast rid none (Payload.queueUpdate room1.queue (pendingSuggestions room1.suggestions)),
           Effect.spawnPredownload rid]))

/-- queue_remove handler. -/
def handle_queue_remove (st : ServerState) (uid : String) (itemId : Option String) :
    ServerState × List Effect :=
  withHostRoom st uid (fun _ rid room =>
    let room1 := { room with queue := queue_remove_queue room.queue itemId }
    let st1 : ServerState := { st with rooms := insertA st.rooms rid room1 }
    (st1, [Effect.broadcast rid none (Payload.queueUpdate room1.queue (pendingSuggestions room1.suggestions)),
           Effect.spawnPredownload rid]))

/-- queue_reorder handler; no pre-download task is spawned on this path. -/
def handle_queue_reorder (st : ServerState) (uid : String) (order : List String) :
    ServerState × List Effect :=
  withHostRoom st uid (fun _ rid room =>
    if order.isEmpty then (st, [])
    else
      let room1 := { room with queue := queue_reorder_queue room.queue order }
      let st1 : ServerState := { st with rooms := insertA st.rooms rid room1 }
      (st1, [Effect.broadcast rid none (Payload.queueUpdate room1.queue (pendingSuggestions room1.suggestions))]))

/-- queue_update_item handler. -/
def handle_queue_update_item (st : ServerState) (uid : String) (itemId : Option String)
    (newStatus aiP : Option String) : ServerState × List Effect :=
  withHostRoom st uid (fun _ rid room =>
    let room1 := { room with queue := queue_update_item_queue room.queue itemId newStatus aiP }
    let st1 : ServerState := { st with rooms := insertA st.rooms rid room1 }
    (st1, [Effect.broadcast rid none (Payload.queueUpdate room1.queue (pendingSuggestions room1.suggestions))]))

/-- queue_advance handler: apply the queue transform, emit queue_play_next
for a promoted item before the queue_update broadcast, then spawn the
pre-download task. -/
def handle_queue_advance (st : ServerState) (uid : String) : ServerState × List Effect :=
  withHostRoom st uid (fun _ rid room =>
    let r := queue_advance_queue room.queue
    let room1 := { room with queue := r.1 }
    let st1 : ServerState := { st with rooms := insertA st.rooms rid room1 }
    (st1, (match r.2 with
           | some it => [Effect.broadcast rid none (Payload.queuePlayNext it)]
           | none => [])
      ++ [Effect.broadcast rid none (Payload.queueUpdate room1.queue (pendingSuggestions room1.suggestions)),
          Effect.spawnPredownload rid]))

/-- respond_suggestion handler. -/
def handle_respond_suggestion (st : ServerState) (uid : String)
    (suggestionId : Option String) (action fid : String) : ServerState × List Effect :=
  withHostRoom st uid (fun _ rid room =>
    let r := respondFirst fid action suggestionId room.suggestions
    let room1 := { room with suggestions := r.1
                             queue := room.queue ++ (match r.2.1 with | some qi => [qi] | none => []) }
    let st1 : ServerState := { st with rooms := insertA st.rooms rid room1 }
    let notif := match r.2.2 with
      | some pr => if room.members.contains pr.1 then
            [Effect.send pr.1 (Payload.suggestionResponse pr.2 action)]
          else []
      | none => []
    (st1, notif ++ [Effect.broadcast rid none (Payload.queueUpdate room1.queue (pendingSuggestions room1.suggestions))]))

/-- The twelve host-only inbound message types. -/
inductive InMsg where
  | toggle_public
  | rename_room (name : String)
  | update_now_playing (nowPlaying : Option String)
  | set_audio_source (audioSource : Option AudioSource) (aiParams : Option String)
  | sync_state (currentTime : Int) (isPlaying : Bool) (playbackSpeed : Int)
  | host_action (action : String) (payload : ActionPayload)
  | queue_add (title source url : String) (soundcloudUrl : Option String)
  | queue_remove (itemId : Option String)
  | queue_reorder (order : List String)
  | queue_update_item (itemId : Option String) (status : Option String) (aiParams : Option String)
  | queue_advance
  | respond_suggestion (suggestionId : Option String) (action : String)
deriving Repr, DecidableEq

/-- Dispatch of the host-only message types. -/
def handleHostOnly (st : ServerState) (uid : String) (m : InMsg) (now : Nat) (fid : String) :
    ServerState × List Effect :=
  match m with
  | .toggle_public => handle_toggle_public st uid
  | .rename_room name => handle_rename_room st uid name
  | .update_now_playing np => handle_update_now_playing st uid np
  | .set_audio_source a p => handle_set_audio_source st uid a p now
  | .sync_state ct ip sp => handle_sync_state st uid ct ip sp now
  | .host_action a p => handle_host_action st uid a p now
  | .queue_add t s u sc => handle_queue_add st uid t s u sc fid
  | .queue_remove i => handle_queue_remove st uid i
  | .queue_reorder o => handle_queue_reorder st uid o
  | .queue_update_item i s a => handle_queue_update_item st uid i s a
  | .queue_advance => handle_queue_advance st uid
  | .respond_suggestion i a => handle_respond_suggestion st uid i a fid

-- ---------------------------------------------------------------------------
-- chat_message and suggest_song handlers
-- ---------------------------------------------------------------------------

/-- chat_message handler: clamp, reject empty, append with the cap, then
broadcast to all members including the sender. -/
def handle_chat_message (st : ServerState) (uid text : String) (now : Nat) (fid : String) :
    ServerState × List Effect :=
  match lookupA st.users uid with
  | none => (st, [])
  | some u =>
    let text1 := (strip text).take 500
    if text1 == "" then (st, [])
    else
      match u.room_id with
      | none => (st, [])
      | some rid =>
        match lookupA st.rooms rid with
        | none => (st, [])
        | some room =>
          let msg : ChatMessage :=
            { id := fid, user_id := uid, username := u.name, text := text1,
              timestamp := now, is_host := room.host_id == uid }
          let room1 := { room with messages := chatAppend room.messages msg }
          let st1 : ServerState := { st with rooms := insertA st.rooms rid room1 }
          (st1, [Effect.broadcast rid none (Payload.chatMessageMsg msg)])

/-- Suggestion built by the suggest_song handler: the constructor call
with the title clamped to 200 chars and the dataclass defaults. -/
def mk_suggestion (fid title source url uid uname : String) (now : Nat) : Suggestion :=
  { id := fid, title := title.take 200, source := source, url := url,
    user_id := uid, username := uname, timestamp := now }

/-- suggest_song handler: audience only, one pending suggestion per user;
the host is notified only through the member dict lookup. -/
def handle_suggest_song (st : ServerState) (uid title source url : String)
    (now : Nat) (fid : String) : ServerState × List Effect :=
  match lookupA st.users uid with
  | none => (st, [])
  | some u =>
    match u.room_id with
    | none => (st, [])
    | some rid =>
      match lookupA st.rooms rid with
      | none => (st, [])
      | some room =>
        if room.host_id == uid then (st, [])
        else if room.suggestions.any (fun s => s.user_id == uid && s.status == "pending") then
          (st, [Effect.send uid (Payload.errorMsg "You already have a pending suggestion")])
        else
          let sg : Suggestion := mk_suggestion fid title source url uid u.name now
          let room1 := { room with suggestions := room.suggestions ++ [sg] }
          let st1 : ServerState := { st with rooms := insertA st.rooms rid room1 }
          (st1,
            (if room.members.contains room.host_id then
               [Effect.send room.host_id (Payload.newSuggestion sg)]
             else [])
            ++ [Effect.send uid (Payload.suggestionSent sg)])

-- ---------------------------------------------------------------------------
-- Specification-side definitions (worded from the claims, for refinement)
-- ---------------------------------------------------------------------------

/-- Transition of the specification for queue_advance: the current playing
item (if any) becomes played; stated over all items, which matches the
break-at-first loop of the source whenever at most one item is playing. -/
def spec_mark_played (q : List QueueItem) : List QueueItem :=
  q.map (fun x => if x.status == "playing" then { x with status := "played" } else x)

/-- Promoted item as the specification words it: the first item of the
queue with status ready or pending, retagged as playing. -/
def spec_promoted (q : List QueueItem) : Option QueueItem :=
  (q.find? (fun x => x.status == "ready" || x.status == "pending")).map
    (fun x => { x with status := "playing" })

/-- Number of playing items of a queue. -/
def countPlaying (q : List QueueItem) : Nat :=
  q.countP (fun x => x.status == "playing")

/-- Shortest queue segment containing the first k non-played items, or the
whole queue when fewer exist: the claim phrase prefix of the queue up
through the k-th non-played item. -/
def upToNonPlayed : Nat → List QueueItem → List QueueItem
  | _, [] => []
  | k, i :: rest =>
    if i.status == "played" then i :: upToNonPlayed k rest
    else if k ≤ 1 then [i]
    else i :: upToNonPlayed (k - 1) rest

/-- Guard under which queue_advance preserves the shape invariant: no
analyzing item sits before the first ready or pending item. -/
def advanceGuard (q : List QueueItem) : Bool :=
  (q.takeWhile (fun x => !(x.status == "ready" || x.status == "pending"))).all
    (fun x => x.status != "analyzing")

/-- Intermediate shape established by the first loop of queue_advance:
played* followed by tail statuses only. -/
def ptShaped : List QueueItem → Bool
  | [] => true
  | i :: rest => if i.status == "played" then ptShaped rest else tailOk (i :: rest)

/-- Shape of the active (non-played) part of a well-shaped queue: an
optional playing head followed by tail statuses only. -/
def activeOk : List QueueItem → Bool
  | [] => true
  | i :: rest => if i.status == "playing" then tailOk rest else tailOk (i :: rest)

/-- Recognizer for the blob-deletion effect. -/
def isDeleteFile : Effect → Bool
  | .deleteFile _ => true
  | _ => false

/-- Recognizer for a queue_play_next broadcast. -/
def isPlayNextEff : Effect → Bool
  | .broadcast _ _ (Payload.queuePlayNext _) => true
  | _ => false

/-- Recognizer for a new_suggestion send. -/
def isNewSuggestionEff : Effect → Bool
  | .send _ (Payload.newSuggestion _) => true
  | _ => false

-- ---------------------------------------------------------------------------
-- Concrete sample data for the evaluated theorems
-- ---------------------------------------------------------------------------

/-- Local queue item with a given id and status. -/
def sampleItem (i st : String) : QueueItem :=
  { id := i, title := i, source := "file", url := "", added_by := "h",
    added_by_name := "H", status := st }

/-- Remote queue item with a resolvable soundcloud url whose url has not
been localized. -/
def sampleScItem (i st : String) : QueueItem :=
  { id := i, title := i, source := "soundcloud", url := "https://sc/" ++ i,
    added_by := "h", added_by_name := "H", status := st,
    soundcloud_url := some ("https://sc/" ++ i) }

/-- Sample chat message. -/
def sampleMsg : ChatMessage :=
  { id := "m0", user_id := "u0", username := "U", text := "x", timestamp := 0 }

/-- Sample suggestion. -/
def sampleSuggestion : Suggestion :=
  { id := "sg", title := "S", source := "file", url := "", user_id := "u", username := "U" }

/-- Public room r1 hosted by h, with audience member m2 and an uploaded
audio source. -/
def c1Room : Room :=
  { id := "r1", name := "R", host_id := "h", host_name := "H", is_public := true,
    members := ["h", "m2"],
    audio_source := some { typ := "upload", url := "/rooms/uploads/f.mp3", title := "T" } }

/-- Registry holding c1Room with its host and one audience member. -/
def c1State : ServerState :=
  { rooms := [("r1", c1Room)],
    users := [("h", { id := "h", name := "H", room_id := some "r1", is_host := true,
                      hosted_room_id := some "r1" }),
              ("m2", { id := "m2", name := "M", room_id := some "r1" })] }

/-- Fresh single-user registry for the C2 scenario. -/
def c2State0 : ServerState :=
  { users := [("alice", { id := "alice", name := "A" })] }

/-- C2 scenario step 1: alice creates room r1. -/
def c2Step1 : ServerState × List Effect := create_room c2State0 "alice" none "sid1" "r1" 10

/-- C2 scenario step 2: alice toggles r1 public. -/
def c2Step2 : ServerState × List Effect := handleHostOnly c2Step1.1 "alice" InMsg.toggle_public 11 "f1"

/-- C2 scenario step 3: alice goes to the menu. -/
def c2Step3 : ServerState × List Effect := go_to_menu c2Step2.1 "alice" "sid2" 12

/-- C2 scenario step 4: alice joins her own hosted (public) room r1. -/
def c2Step4 : ServerState × List Effect := join_room c2Step3.1 "alice" (some "r1") "sid3" "sid4" 13

/-- Room r1 with exactly 200 chat messages, host h and visiting member b. -/
def c3Room : Room :=
  { id := "r1", name := "R", host_id := "h", host_name := "H",
    members := ["h", "b"], messages := List.replicate 200 sampleMsg }

/-- Registry for the C3 counterexample: b occupies r1 while hosting rX. -/
def c3State : ServerState :=
  { rooms := [("r1", c3Room)],
    users := [("h", { id := "h", name := "H", room_id := some "r1", is_host := true,
                      hosted_room_id := some "r1" }),
              ("b", { id := "b", name := "B", room_id := some "r1",
                      hosted_room_id := some "rX" })] }

/-- Queue of three un-localized soundcloud items: playing, ready, pending. -/
def c4Queue : List QueueItem :=
  [sampleScItem "A" "playing", sampleScItem "B" "ready", sampleScItem "C" "pending"]

/-- Well-shaped two-item pending queue for the C5 counterexample. -/
def c5Queue : List QueueItem := [sampleItem "a" "pending", sampleItem "b" "pending"]

/-- Reachable queue whose played item is not a prefix (obtained from
c5Queue by queue_update_item setting item b to played). -/
def c6BadQueue : List QueueItem := [sampleItem "a" "pending", sampleItem "b" "played"]

/-- Queue of scenario S4. -/
def s4Queue : List QueueItem :=
  [sampleItem "A" "playing", sampleItem "B" "ready", sampleItem "C" "ready",
   sampleItem "D" "pending", sampleItem "E" "pending", sampleItem "F" "pending"]

/-- Queue of scenario S3. -/
def s3Queue : List QueueItem :=
  [sampleItem "X" "playing", sampleItem "Y" "ready", sampleItem "Z" "pending"]

/-- Room for the S3 witness, hosted by h with the S3 queue. -/
def c7Room : Room :=
  { id := "r1", name := "R", host_id := "h", host_name := "H", is_public := true,
    members := ["h", "m2"], queue := s3Queue }

/-- Registry for the S3 witness. -/
def c7State : ServerState :=
  { rooms := [("r1", c7Room)],
    users := [("h", { id := "h", name := "H", room_id := some "r1", is_host := true,
                      hosted_room_id := some "r1" }),
              ("m2", { id := "m2", name := "M", room_id := some "r1" })] }

/-- Un-localized soundcloud item for the C8 counterexample. -/
def c8Item : QueueItem := sampleScItem "i" "playing"

/-- Public room r1 whose host h is visiting elsewhere: member map holds
only the audience member m2 and host_visiting is set. -/
def c10Room : Room :=
  { id := "r1", name := "R", host_id := "h", host_name := "H", is_public := true,
    members := ["m2"], host_visiting := true }

/-- Registry for the C10 witness and the C9 witness: m2 occupies r1 and is
not its host. -/
def c10State : ServerState :=
  { rooms := [("r1", c10Room)],
    users := [("h", { id := "h", name := "H", hosted_room_id := some "r1" }),
              ("m2", { id := "m2", name := "M", room_id := some "r1" })] }

-- ---------------------------------------------------------------------------
-- C1: destruction of a hosted room and uploaded media
-- ---------------------------------------------------------------------------

/-- C1: the destroy-hosted-room path (explicit end_room, or host
disconnect) notifies each member with room_closed, removes the room from
the registry, refreshes the public listing and clears hosted_room_id, but
it never deletes the uploaded media referenced by the audio source: on a
room holding an upload audio source the effect list of
destroy_hosted_room (also via handle_end_room) has no deleteFile entry,
whereas the generic leave_room destruction path does emit the deletion of
the same file. -/
theorem c1_destroy_skips_media_delete :
    (destroy_hosted_room c1State "h").2 =
      [Effect.send "h" (Payload.roomClosed "Host ended the stage"),
       Effect.send "m2" (Payload.roomClosed "Host ended the stage"),
       Effect.broadcastPublicRooms []]
    ∧ lookupA (destroy_hosted_room c1State "h").1.rooms "r1" = none
    ∧ (lookupA (destroy_hosted_room c1State "h").1.users "h").map (fun u => u.hosted_room_id)
        = some none
    ∧ c1Room.audio_source =
        some { typ := "upload", url := "/rooms/uploads/f.mp3", title := "T" }
    ∧ ((destroy_hosted_room c1State "h").2.all (fun e => !(isDeleteFile e))) = true
    ∧ (handle_end_room c1State "h").2.all (fun e => !(isDeleteFile e)) = true
    ∧ (leave_room c1State "h" "sidA" 5).2.contains (Effect.deleteFile "f.mp3") = true := by
  decide

-- ---------------------------------------------------------------------------
-- C2: hostVisiting iff host absent from members
-- ---------------------------------------------------------------------------

/-- C2: the invariant hostVisiting iff the host id is absent from the
member map is broken by the code on the very operation the claim names: a
host who creates a room, toggles it public, goes to the menu and then
sends join_room for the own hosted room ends with host_visiting still
true while the host id is back among the members. -/
theorem c2_rejoin_breaks_visiting_invariant :
    (lookupA c2Step4.1.rooms "r1").map
        (fun r => (r.host_visiting, r.members.contains r.host_id))
      = some (true, true) := by
  decide

-- ---------------------------------------------------------------------------
-- C4: pre-download selection
-- ---------------------------------------------------------------------------

/-- C4: the pre-download loop does not cover the priority region: on a
queue of three un-localized remote items with statuses playing, ready,
pending, the source filter (status playing, or the never-assigned status
priority) selects only the playing item, while the specification region,
the first three non-played items filtered by the same skip conditions,
contains all three. -/
theorem c4_selection_misses_priority_region :
    predownload_selection c4Queue = [sampleScItem "A" "playing"]
    ∧ spec_predownload_selection c4Queue =
        [sampleScItem "A" "playing", sampleScItem "B" "ready", sampleScItem "C" "pending"]
    ∧ spec_priority_region c4Queue = c4Queue := by
  decide

-- ---------------------------------------------------------------------------
-- C3: chat history bound
-- ---------------------------------------------------------------------------

/-- C3 counterexample: a system-message append does not truncate, so a
room already holding exactly 200 messages holds 201 after a visited-leave
appends the departure line, refuting the claim that the length stays at
most 200 after the system appends of join and leave. -/
theorem c3_sys_append_exceeds_cap :
    (match lookupA (leave_visited_room c3State "b" "sidB" 9).1.rooms "r1" with
     | some r => r.messages.length
     | none => 0) = 201
    ∧ c3Room.messages.length = 200 := by
  constructor
  · have h : (match lookupA (leave_visited_room c3State "b" "sidB" 9).1.rooms "r1" with
       | some r => r.messages
       | none => []) = List.replicate 200 sampleMsg ++
         [{ id := "sidB", user_id := "system", username := "System",
            text := "B left the stage", timestamp := 9, is_system := true }] := by decide
    have h2 : (match lookupA (leave_visited_room c3State "b" "sidB" 9).1.rooms "r1" with
       | some r => r.messages.length
       | none => 0) = (match lookupA (leave_visited_room c3State "b" "sidB" 9).1.rooms "r1" with
       | some r => r.messages
       | none => []).length := by
      cases lookupA (leave_visited_room c3State "b" "sidB" 9).1.rooms "r1" <;> rfl
    rw [h2, h]
    simp
  · simp [c3Room]

/-- C3 amended: only the chat_message append enforces the bound; it keeps
the history at 200 or less, truncating to the most recent 100 whenever
the append pushes the length beyond 200 (the system-message appends of
join, visited-leave and member-leave do not truncate and may leave the
history longer, as the counterexample shows). -/
theorem c3_chat_append_cap (msgs : List ChatMessage) (m : ChatMessage) :
    (chatAppend msgs m).length ≤ 200
    ∧ ((msgs ++ [m]).length > 200 → (chatAppend msgs m).length = 100) := by
  have h1 : (msgs ++ [m]).length = msgs.length + 1 := by simp
  constructor
  · simp only [chatAppend]
    split
    · simp only [List.length_drop]
      omega
    · omega
  · intro h
    simp only [chatAppend]
    rw [if_pos (by omega : (msgs ++ [m]).length > 200)]
    simp only [List.length_drop]
    omega

/-- C3 witness: the chat cap theorem applied at a history of exactly 200
messages: the append crosses the threshold and leaves exactly 100. -/
theorem c3_chat_append_cap_witness :
    (List.replicate 200 sampleMsg ++ [sampleMsg]).length > 200
    ∧ (chatAppend (List.replicate 200 sampleMsg) sampleMsg).length = 100 :=
  ⟨by simp, (c3_chat_append_cap (List.replicate 200 sampleMsg) sampleMsg).2 (by simp)⟩

-- ---------------------------------------------------------------------------
-- C8: pre-download failure handling
-- ---------------------------------------------------------------------------

/-- C8 counterexample: a download failure (here the 120 second timeout)
leaves the downloadStatus of the affected item untouched at pending
rather than setting it to failed, and emits nothing, so no queue state
re-broadcast happens. -/
theorem c8_failure_not_recorded :
    (apply_download c8Item DownloadOutcome.timeout).1.download_status = "pending"
    ∧ ¬((apply_download c8Item DownloadOutcome.timeout).1.download_status = "failed")
    ∧ (apply_download c8Item DownloadOutcome.timeout).2 = [] := by
  decide

/-- C8 amended: pre-download is fire-and-forget in both directions: on a
successful response the item url is rewritten to the served file url; on
any failure (non-OK status, collaborator ok false, timeout, exception)
the item is left completely unchanged; downloadStatus is never modified
and no envelope is ever emitted from the download loop. -/
theorem c8_download_behavior (item : QueueItem) (r : DownloadOutcome) :
    (apply_download item r).2 = []
    ∧ (apply_download item r).1.download_status = item.download_status
    ∧ (∀ u : String, r = DownloadOutcome.httpOk true u →
        (apply_download item r).1 = { item with url := u })
    ∧ ((∀ u : String, r ≠ DownloadOutcome.httpOk true u) →
        (apply_download item r).1 = item) := by
  cases r with
  | httpOk ok file_url =>
    cases ok with
    | true =>
      refine ⟨rfl, rfl, ?_, ?_⟩
      · intro u h
        cases h
        rfl
      · intro h
        exact absurd rfl (h file_url)
    | false =>
      refine ⟨rfl, rfl, ?_, fun _ => rfl⟩
      intro u h
      cases h
  | httpStatus code =>
    refine ⟨rfl, rfl, ?_, fun _ => rfl⟩
    intro u h
    cases h
  | timeout =>
    refine ⟨rfl, rfl, ?_, fun _ => rfl⟩
    intro u h
    cases h
  | exn =>
    refine ⟨rfl, rfl, ?_, fun _ => rfl⟩
    intro u h
    cases h

/-- C8 witness: the download behavior theorem applied to the sample item,
once at a successful outcome and once at the timeout. -/
theorem c8_download_behavior_witness :
    (apply_download c8Item (DownloadOutcome.httpOk true "/soundcloud/file/i.mp3")).1
      = { c8Item with url := "/soundcloud/file/i.mp3" }
    ∧ (apply_download c8Item DownloadOutcome.timeout).1 = c8Item :=
  ⟨(c8_download_behavior c8Item (DownloadOutcome.httpOk true "/soundcloud/file/i.mp3")).2.2.1
      "/soundcloud/file/i.mp3" rfl,
   (c8_download_behavior c8Item DownloadOutcome.timeout).2.2.2 (by intro u h; cases h)⟩

-- ---------------------------------------------------------------------------
-- C9: host-only messages from non-hosts are silent no-ops
-- ---------------------------------------------------------------------------

theorem withHostRoom_not_host {st : ServerState} {uid rid : String} {u : User} {room : Room}
    (hu : lookupA st.users uid = some u) (hr : targetRid u = some rid)
    (hro : lookupA st.rooms rid = some room) (hne : room.host_id ≠ uid)
    (k : User → String → Room → ServerState × List Effect) :
    withHostRoom st uid k = (st, []) := by
  unfold withHostRoom
  simp only [hu, hr, hro]
  simp [beq_eq_false_iff_ne.mpr hne]

/-- C9: every host-only inbound message (toggle_public, rename_room,
update_now_playing, set_audio_source, sync_state, host_action, queue_add,
queue_remove, queue_reorder, queue_update_item, queue_advance,
respond_suggestion) sent by a user who is not the host of the targeted
room is a complete no-op: no envelope or effect is emitted to anyone and
the whole server state is unchanged. -/
theorem c9_host_only_silent (st : ServerState) (uid : String) (m : InMsg)
    (now : Nat) (fid : String) (u : User) (rid : String) (room : Room)
    (hu : lookupA st.users uid = some u) (hr : targetRid u = some rid)
    (hro : lookupA st.rooms rid = some room) (hne : room.host_id ≠ uid) :
    handleHostOnly st uid m now fid = (st, []) := by
  cases m <;>
    simp only [handleHostOnly, handle_toggle_public, handle_rename_room,
      handle_update_now_playing, handle_set_audio_source, handle_sync_state,
      handle_host_action, handle_queue_add, handle_queue_remove, handle_queue_reorder,
      handle_queue_update_item, handle_queue_advance, handle_respond_suggestion] <;>
    exact withHostRoom_not_host hu hr hro hne _

/-- C9 witness: the silence theorem applied at the concrete registry where
m2 occupies room r1 hosted by h, for a queue_advance message. -/
theorem c9_host_only_silent_witness :
    lookupA c10State.users "m2" = some { id := "m2", name := "M", room_id := some "r1" }
    ∧ handleHostOnly c10State "m2" InMsg.queue_advance 1 "f" = (c10State, []) :=
  ⟨by decide,
   c9_host_only_silent c10State "m2" InMsg.queue_advance 1 "f"
     { id := "m2", name := "M", room_id := some "r1" } "r1" c10Room
     (by decide) (by decide) (by decide) (by decide)⟩

-- ---------------------------------------------------------------------------
-- C10: suggestion delivery and the visiting host
-- ---------------------------------------------------------------------------

/-- C10: a valid suggest_song from an audience member with no pending
suggestion always records the suggestion as pending and confirms to the
sender with suggestion_sent; the new_suggestion envelope goes to the host
exactly when the host id is present in the member map, and when the host
is absent (the member-map meaning of hostVisiting) no new_suggestion
envelope is delivered to anyone. -/
theorem c10_suggest_delivery (st : ServerState) (uid title source url : String)
    (now : Nat) (fid : String) (u : User) (rid : String) (room : Room)
    (hu : lookupA st.users uid = some u) (hr : u.room_id = some rid)
    (hro : lookupA st.rooms rid = some room) (hne : room.host_id ≠ uid)
    (hnp : room.suggestions.any (fun s => s.user_id == uid && s.status == "pending") = false) :
    handle_suggest_song st uid title source url now fid =
      ({ st with rooms := insertA st.rooms rid
                   { room with suggestions := room.suggestions ++
                       [mk_suggestion fid title source url uid u.name now] } },
       (if room.members.contains room.host_id then
          [Effect.send room.host_id (Payload.newSuggestion (mk_suggestion fid title source url uid u.name now))]
        else [])
       ++ [Effect.send uid (Payload.suggestionSent (mk_suggestion fid title source url uid u.name now))])
    ∧ (mk_suggestion fid title source url uid u.name now).status = "pending"
    ∧ ((handle_suggest_song st uid title source url now fid).2.countP isNewSuggestionEff
        = if room.members.contains room.host_id then 1 else 0)
    ∧ (room.members.contains room.host_id = false →
        (handle_suggest_song st uid title source url now fid).2 =
          [Effect.send uid (Payload.suggestionSent (mk_suggestion fid title source url uid u.name now))]) := by
  have hmain : handle_suggest_song st uid title source url now fid =
      ({ st with rooms := insertA st.rooms rid
                   { room with suggestions := room.suggestions ++
                       [mk_suggestion fid title source url uid u.name now] } },
       (if room.members.contains room.host_id then
          [Effect.send room.host_id (Payload.newSuggestion (mk_suggestion fid title source url uid u.name now))]
        else [])
       ++ [Effect.send uid (Payload.suggestionSent (mk_suggestion fid title source url uid u.name now))]) := by
    unfold handle_suggest_song
    simp only [hu, hr, hro, hnp]
    simp [beq_eq_false_iff_ne.mpr hne]
  refine ⟨hmain, rfl, ?_, ?_⟩
  · rw [hmain]
    by_cases hc : room.host_id ∈ room.members
    · simp [hc, isNewSuggestionEff]
    · simp [hc, isNewSuggestionEff]
  · intro hc
    rw [hmain]
    simp only [hc]
    simp

/-- C10 witness: the delivery theorem applied at the registry where host h
is visiting elsewhere (absent from the member map of r1): the suggestion
from m2 yields only suggestion_sent. -/
theorem c10_suggest_delivery_witness :
    c10Room.members.contains c10Room.host_id = false
    ∧ (handle_suggest_song c10State "m2" "Song" "soundcloud" "https://sc/s" 7 "sg1").2 =
        [Effect.send "m2" (Payload.suggestionSent
           (mk_suggestion "sg1" "Song" "soundcloud" "https://sc/s" "m2" "M" 7))] :=
  ⟨by decide,
   (c10_suggest_delivery c10State "m2" "Song" "soundcloud" "https://sc/s" 7 "sg1"
      { id := "m2", name := "M", room_id := some "r1" } "r1" c10Room
      (by decide) (by decide) (by decide) (by decide) (by decide)).2.2.2 (by decide)⟩

-- ---------------------------------------------------------------------------
-- C7: queue_advance refinement
-- ---------------------------------------------------------------------------

theorem countPlaying_cons (i : QueueItem) (rest : List QueueItem) :
    countPlaying (i :: rest) = countPlaying rest + (if i.status = "playing" then 1 else 0) := by
  simp [countPlaying, List.countP_cons]

theorem markPlayed_of_no_playing {q : List QueueItem}
    (h : ∀ x ∈ q, x.status ≠ "playing") : markPlayed q = q := by
  induction q with
  | nil => rfl
  | cons i rest ih =>
    have hi := h i (by simp)
    have hr := ih (fun x hx => h x (by simp [hx]))
    simp [markPlayed, hi, hr]

theorem spec_mark_of_no_playing {q : List QueueItem}
    (h : ∀ x ∈ q, x.status ≠ "playing") : spec_mark_played q = q := by
  induction q with
  | nil => rfl
  | cons i rest ih =>
    have hi : (i.status == "playing") = false := beq_eq_false_iff_ne.mpr (h i (by simp))
    have hr := ih (fun x hx => h x (by simp [hx]))
    simp only [spec_mark_played, List.map_cons] at hr ⊢
    rw [hr, hi]
    simp

theorem countPlaying_zero_iff {q : List QueueItem} :
    countPlaying q = 0 ↔ ∀ x ∈ q, x.status ≠ "playing" := by
  unfold countPlaying
  rw [List.countP_eq_zero]
  constructor
  · intro h x hx
    have := h x hx
    simpa using this
  · intro h x hx
    simpa using h x hx

theorem markPlayed_eq_spec {q : List QueueItem} (h : countPlaying q ≤ 1) :
    markPlayed q = spec_mark_played q := by
  induction q with
  | nil => rfl
  | cons i rest ih =>
    by_cases hi : i.status = "playing"
    · have hz : countPlaying rest = 0 := by
        rw [countPlaying_cons] at h
        simp [hi] at h
        omega
      have hnp := countPlaying_zero_iff.mp hz
      have hmap := spec_mark_of_no_playing hnp
      have hib : (i.status == "playing") = true := beq_iff_eq.mpr hi
      simp only [spec_mark_played] at hmap
      simp only [markPlayed, spec_mark_played, List.map_cons, hib]
      rw [hmap]
      simp
    · have h2 : countPlaying rest ≤ 1 := by
        rw [countPlaying_cons] at h
        omega
      have hib : (i.status == "playing") = false := beq_eq_false_iff_ne.mpr hi
      have ihe := ih h2
      simp only [spec_mark_played] at ihe
      simp only [markPlayed, spec_mark_played, List.map_cons, hib]
      rw [ihe]
      simp

theorem promoteNext_snd (l : List QueueItem) :
    (promoteNext l).2 =
      (l.find? (fun x => x.status == "ready" || x.status == "pending")).map
        (fun x => { x with status := "playing" }) := by
  induction l with
  | nil => rfl
  | cons i rest ih =>
    by_cases hi : (i.status == "ready" || i.status == "pending") = true
    · simp [promoteNext, List.find?, hi]
    · have hb : (i.status == "ready" || i.status == "pending") = false :=
        Bool.eq_false_iff.mpr hi
      simp [promoteNext, List.find?, hb, ih]

theorem find?_markPlayed (q : List QueueItem) :
    (markPlayed q).find? (fun x => x.status == "ready" || x.status == "pending") =
      q.find? (fun x => x.status == "ready" || x.status == "pending") := by
  induction q with
  | nil => rfl
  | cons i rest ih =>
    by_cases hi : i.status = "playing"
    · simp [markPlayed, hi, List.find?]
    · by_cases hrp : (i.status == "ready" || i.status == "pending") = true
      · simp [markPlayed, hi, List.find?, hrp]
      · have hb : (i.status == "ready" || i.status == "pending") = false :=
          Bool.eq_false_iff.mpr hrp
        simp [markPlayed, hi, List.find?, hb, ih]

theorem queue_advance_snd_spec (q : List QueueItem) :
    (queue_advance_queue q).2 = spec_promoted q := by
  unfold queue_advance_queue spec_promoted
  rw [promoteNext_snd, find?_markPlayed]

/-- C7: a queue_advance from the host transitions the current playing
item (there being at most one) to played, promotes the first ready or
pending item of the queue to playing, and emits exactly one
queue_play_next broadcast carrying the promoted item, placed before the
queue_update broadcast, precisely when a promotion occurred. -/
theorem c7_queue_advance (st : ServerState) (uid : String) (now : Nat) (fid : String)
    (u : User) (rid : String) (room : Room)
    (hu : lookupA st.users uid = some u) (hr : targetRid u = some rid)
    (hro : lookupA st.rooms rid = some room) (hhost : room.host_id = uid)
    (hone : countPlaying room.queue ≤ 1) :
    handleHostOnly st uid InMsg.queue_advance now fid =
      ({ st with rooms := insertA st.rooms rid
                   { room with queue := (queue_advance_queue room.queue).1 } },
       (match (queue_advance_queue room.queue).2 with
        | some it => [Effect.broadcast rid none (Payload.queuePlayNext it)]
        | none => [])
       ++ [Effect.broadcast rid none (Payload.queueUpdate (queue_advance_queue room.queue).1
              (pendingSuggestions room.suggestions)),
           Effect.spawnPredownload rid])
    ∧ (queue_advance_queue room.queue).1 = (promoteNext (spec_mark_played room.queue)).1
    ∧ (queue_advance_queue room.queue).2 = spec_promoted room.queue
    ∧ (handleHostOnly st uid InMsg.queue_advance now fid).2.countP isPlayNextEff
        = (if (spec_promoted room.queue).isSome then 1 else 0) := by
  have hmain : handleHostOnly st uid InMsg.queue_advance now fid =
      ({ st with rooms := insertA st.rooms rid
                   { room with queue := (queue_advance_queue room.queue).1 } },
       (match (queue_advance_queue room.queue).2 with
        | some it => [Effect.broadcast rid none (Payload.queuePlayNext it)]
        | none => [])
       ++ [Effect.broadcast rid none (Payload.queueUpdate (queue_advance_queue room.queue).1
              (pendingSuggestions room.suggestions)),
           Effect.spawnPredownload rid]) := by
    unfold handleHostOnly handle_queue_advance withHostRoom
    simp only [hu, hr, hro, beq_iff_eq.mpr hhost]
    simp
  refine ⟨hmain, ?_, queue_advance_snd_spec room.queue, ?_⟩
  · unfold queue_advance_queue
    rw [markPlayed_eq_spec hone]
  · rw [hmain]
    rw [← queue_advance_snd_spec room.queue]
    cases hcase : (queue_advance_queue room.queue).2 with
    | none => simp [isPlayNextEff, List.countP_cons]
    | some it => simp [isPlayNextEff, List.countP_cons, List.countP_append]

/-- C7 witness: the advance theorem applied at scenario S3: queue playing
X, ready Y, pending Z advances to played X, playing Y, pending Z with Y
promoted and announced once. -/
theorem c7_queue_advance_witness :
    countPlaying c7Room.queue ≤ 1
    ∧ handleHostOnly c7State "h" InMsg.queue_advance 20 "f7" =
      ({ c7State with rooms := insertA c7State.rooms "r1"
                        { c7Room with queue := (queue_advance_queue c7Room.queue).1 } },
       (match (queue_advance_queue c7Room.queue).2 with
        | some it => [Effect.broadcast "r1" none (Payload.queuePlayNext it)]
        | none => [])
       ++ [Effect.broadcast "r1" none (Payload.queueUpdate (queue_advance_queue c7Room.queue).1
              (pendingSuggestions c7Room.suggestions)),
           Effect.spawnPredownload "r1"]) :=
  ⟨by decide,
   (c7_queue_advance c7State "h" 20 "f7"
      { id := "h", name := "H", room_id := some "r1", is_host := true, hosted_room_id := some "r1" }
      "r1" c7Room (by decide) (by decide) (by decide) (by decide) (by decide)).1⟩

-- ---------------------------------------------------------------------------
-- Queue shape machinery for C5 and C6
-- ---------------------------------------------------------------------------

theorem isTail_cases {s : String} (h : isTail s = true) :
    s = "ready" ∨ s = "pending" ∨ s = "analyzing" := by
  unfold isTail at h
  simp only [Bool.or_eq_true, beq_iff_eq] at h
  tauto

theorem isTail_ne_played {s : String} (h : isTail s = true) : (s == "played") = false := by
  rcases isTail_cases h with h1 | h1 | h1 <;> subst h1 <;> decide

theorem isTail_ne_playing {s : String} (h : isTail s = true) : (s == "playing") = false := by
  rcases isTail_cases h with h1 | h1 | h1 <;> subst h1 <;> decide

theorem tailOk_iff {l : List QueueItem} :
    tailOk l = true ↔ ∀ x ∈ l, isTail x.status = true := by
  unfold tailOk
  exact List.all_eq_true

theorem tailOk_wellShaped {l : List QueueItem} (h : tailOk l = true) :
    wellShaped l = true := by
  cases l with
  | nil => rfl
  | cons i rest =>
    have hall := tailOk_iff.mp h
    have hi := hall i (by simp)
    have hrest : tailOk rest = true := tailOk_iff.mpr (fun x hx => hall x (by simp [hx]))
    simp only [wellShaped, isTail_ne_played hi, isTail_ne_playing hi]
    simp [hi, hrest]

theorem wellShaped_tail {i : QueueItem} {l : List QueueItem}
    (h : wellShaped (i :: l) = true) : wellShaped l = true := by
  by_cases h1 : (i.status == "played") = true
  · simp only [wellShaped, h1] at h
    simpa using h
  · have h1f : (i.status == "played") = false := Bool.eq_false_iff.mpr h1
    by_cases h2 : (i.status == "playing") = true
    · simp only [wellShaped, h1f, h2] at h
      simp only [Bool.false_eq_true, if_false, if_true] at h
      exact tailOk_wellShaped h
    · have h2f : (i.status == "playing") = false := Bool.eq_false_iff.mpr h2
      simp only [wellShaped, h1f, h2f] at h
      simp only [Bool.false_eq_true, if_false, Bool.and_eq_true] at h
      exact tailOk_wellShaped h.2

theorem tailOk_sublist {l' l : List QueueItem} (hs : List.Sublist l' l) (h : tailOk l = true) :
    tailOk l' = true :=
  tailOk_iff.mpr (fun x hx => tailOk_iff.mp h x (hs.subset hx))

theorem wellShaped_sublist {l' l : List QueueItem} (hs : List.Sublist l' l)
    (h : wellShaped l = true) : wellShaped l' = true := by
  induction hs with
  | slnil => rfl
  | cons a hs ih => exact ih (wellShaped_tail h)
  | cons₂ a hs ih =>
    by_cases h1 : (a.status == "played") = true
    · simp only [wellShaped, h1, if_true] at h ⊢
      exact ih h
    · have h1f : (a.status == "played") = false := Bool.eq_false_iff.mpr h1
      by_cases h2 : (a.status == "playing") = true
      · simp only [wellShaped, h1f, h2, Bool.false_eq_true, if_false, if_true] at h ⊢
        exact tailOk_sublist hs h
      · have h2f : (a.status == "playing") = false := Bool.eq_false_iff.mpr h2
        simp only [wellShaped, h1f, h2f, Bool.false_eq_true, if_false, Bool.and_eq_true] at h ⊢
        exact ⟨h.1, tailOk_sublist hs h.2⟩

theorem wellShaped_snoc_tail {q : List QueueItem} {x : QueueItem}
    (h : wellShaped q = true) (hx : isTail x.status = true) :
    wellShaped (q ++ [x]) = true := by
  induction q with
  | nil =>
    simp only [List.nil_append]
    exact tailOk_wellShaped (tailOk_iff.mpr (by intro y hy; simp at hy; subst hy; exact hx))
  | cons i rest ih =>
    by_cases h1 : (i.status == "played") = true
    · simp only [wellShaped, h1, if_true, List.cons_append] at h ⊢
      exact ih h
    · have h1f : (i.status == "played") = false := Bool.eq_false_iff.mpr h1
      by_cases h2 : (i.status == "playing") = true
      · simp only [wellShaped, h1f, h2, Bool.false_eq_true, if_false, if_true,
          List.cons_append] at h ⊢
        exact tailOk_iff.mpr (by
          intro y hy
          rcases List.mem_append.mp hy with hy1 | hy2
          · exact tailOk_iff.mp h y hy1
          · simp at hy2; subst hy2; exact hx)
      · have h2f : (i.status == "playing") = false := Bool.eq_false_iff.mpr h2
        simp only [wellShaped, h1f, h2f, Bool.false_eq_true, if_false, Bool.and_eq_true,
          List.cons_append] at h ⊢
        refine ⟨h.1, tailOk_iff.mpr ?_⟩
        intro y hy
        rcases List.mem_append.mp hy with hy1 | hy2
        · exact tailOk_iff.mp h.2 y hy1
        · simp at hy2; subst hy2; exact hx

theorem wellShaped_append_played {P l : List QueueItem}
    (hp : ∀ x ∈ P, (x.status == "played") = true) :
    wellShaped (P ++ l) = wellShaped l := by
  induction P with
  | nil => rfl
  | cons i rest ih =>
    have hi := hp i (by simp)
    simp only [List.cons_append, wellShaped, hi, if_true]
    exact ih (fun x hx => hp x (by simp [hx]))

theorem tailOk_filter_played_nil {l : List QueueItem} (h : tailOk l = true) :
    l.filter (fun x => x.status == "played") = [] := by
  rw [List.filter_eq_nil_iff]
  intro x hx
  have := isTail_ne_played (tailOk_iff.mp h x hx)
  simp [this]

theorem tailOk_filter_nonplayed_self {l : List QueueItem} (h : tailOk l = true) :
    l.filter (fun x => x.status != "played") = l := by
  rw [List.filter_eq_self]
  intro x hx
  have := isTail_ne_played (tailOk_iff.mp h x hx)
  simp [bne, this]

theorem wellShaped_decomp {q : List QueueItem} (h : wellShaped q = true) :
    q.filter (fun x => x.status == "played") ++ q.filter (fun x => x.status != "played") = q := by
  induction q with
  | nil => rfl
  | cons i rest ih =>
    by_cases h1 : (i.status == "played") = true
    · have hws : wellShaped rest = true := by
        simpa only [wellShaped, h1, if_true] using h
      have hbne : (i.status != "played") = false := by simp [bne, h1]
      simp only [List.filter_cons, h1, hbne, Bool.false_eq_true, if_false, if_true,
        List.cons_append]
      rw [ih hws]
    · have h1f : (i.status == "played") = false := Bool.eq_false_iff.mpr h1
      have htail : tailOk rest = true := by
        by_cases h2 : (i.status == "playing") = true
        · simpa only [wellShaped, h1f, h2, Bool.false_eq_true, if_false, if_true] using h
        · have h2f : (i.status == "playing") = false := Bool.eq_false_iff.mpr h2
          have := h
          simp only [wellShaped, h1f, h2f, Bool.false_eq_true, if_false,
            Bool.and_eq_true] at this
          exact this.2
      have hbne : (i.status != "played") = true := by simp [bne, h1f]
      simp only [List.filter_cons, h1f, hbne, Bool.false_eq_true, if_false, if_true]
      rw [tailOk_filter_played_nil htail, tailOk_filter_nonplayed_self htail]
      simp

theorem wellShaped_active {q : List QueueItem} (h : wellShaped q = true) :
    activeOk (q.filter (fun x => x.status != "played")) = true := by
  induction q with
  | nil => rfl
  | cons i rest ih =>
    by_cases h1 : (i.status == "played") = true
    · have hws : wellShaped rest = true := by
        simpa only [wellShaped, h1, if_true] using h
      have hbne : (i.status != "played") = false := by simp [bne, h1]
      simpa only [List.filter_cons, hbne, Bool.false_eq_true, if_false]
        using ih hws
    · have h1f : (i.status == "played") = false := Bool.eq_false_iff.mpr h1
      by_cases h2 : (i.status == "playing") = true
      · have htail : tailOk rest = true := by
          simpa only [wellShaped, h1f, h2, Bool.false_eq_true, if_false, if_true] using h
        have hbne : (i.status != "played") = true := by simp [bne, h1f]
        simp only [List.filter_cons, hbne, if_true]
        rw [tailOk_filter_nonplayed_self htail]
        simp only [activeOk, h2, if_true]
        exact htail
      · have h2f : (i.status == "playing") = false := Bool.eq_false_iff.mpr h2
        have hpair : isTail i.status = true ∧ tailOk rest = true := by
          have := h
          simp only [wellShaped, h1f, h2f, Bool.false_eq_true, if_false,
            Bool.and_eq_true] at this
          exact this
        have hbne : (i.status != "played") = true := by simp [bne, h1f]
        simp only [List.filter_cons, hbne, if_true]
        rw [tailOk_filter_nonplayed_self hpair.2]
        simp only [activeOk, h2f, Bool.false_eq_true, if_false]
        exact tailOk_iff.mpr (by
          intro x hx
          rcases List.mem_cons.mp hx with hx1 | hx2
          · subst hx1; exact hpair.1
          · exact tailOk_iff.mp hpair.2 x hx2)

theorem activeOk_drop_tail {A : List QueueItem} (h : activeOk A = true) :
    ∀ x ∈ A.drop 3, isTail x.status = true := by
  intro x hx
  cases A with
  | nil => simp at hx
  | cons i rest =>
    by_cases h2 : (i.status == "playing") = true
    · have htail : tailOk rest = true := by
        simpa only [activeOk, h2, if_true] using h
      have hx2 : x ∈ List.drop 2 rest := by simpa using hx
      have : x ∈ rest := List.drop_subset 2 rest hx2
      exact tailOk_iff.mp htail x this
    · have h2f : (i.status == "playing") = false := Bool.eq_false_iff.mpr h2
      have htail : tailOk (i :: rest) = true := by
        simpa only [activeOk, h2f, Bool.false_eq_true, if_false] using h
      have : x ∈ i :: rest := List.drop_subset 3 (i :: rest) hx
      exact tailOk_iff.mp htail x this

theorem shape_core {A S : List QueueItem} (hA : activeOk A = true)
    (hS : ∀ x ∈ S, isTail x.status = true) :
    wellShaped (A.take 3 ++ S) = true := by
  cases A with
  | nil =>
    simp only [List.take_nil, List.nil_append]
    exact tailOk_wellShaped (tailOk_iff.mpr hS)
  | cons i rest =>
    by_cases h2 : (i.status == "playing") = true
    · have htail : tailOk rest = true := by
        simpa only [activeOk, h2, if_true] using hA
      have hnp : (i.status == "played") = false := by
        have heq : i.status = "playing" := by simpa using h2
        rw [heq]; decide
      simp only [List.take_cons, List.cons_append, wellShaped, hnp, h2, Bool.false_eq_true,
        if_false, if_true]
      exact tailOk_iff.mpr (by
        intro x hx
        rcases List.mem_append.mp hx with hx1 | hx2
        · exact tailOk_iff.mp htail x (List.take_subset _ _ hx1)
        · exact hS x hx2)
    · have h2f : (i.status == "playing") = false := Bool.eq_false_iff.mpr h2
      have htail : tailOk (i :: rest) = true := by
        simpa only [activeOk, h2f, Bool.false_eq_true, if_false] using hA
      refine tailOk_wellShaped (tailOk_iff.mpr ?_)
      intro x hx
      rcases List.mem_append.mp hx with hx1 | hx2
      · exact tailOk_iff.mp htail x (List.take_subset _ _ hx1)
      · exact hS x hx2

theorem mem_dictInsert {m : List QueueItem} {y x : QueueItem}
    (h : x ∈ dictInsert m y) : x ∈ m ∨ x = y := by
  unfold dictInsert at h
  split at h
  · rcases List.mem_map.mp h with ⟨z, hz, hzx⟩
    by_cases hzy : (z.id == y.id) = true
    · right
      rw [← hzx]
      simp [hzy]
    · left
      have hzf : (z.id == y.id) = false := Bool.eq_false_iff.mpr hzy
      rw [← hzx]
      simpa [hzf] using hz
  · rcases List.mem_append.mp h with h1 | h2
    · exact Or.inl h1
    · right
      simpa using h2

theorem mem_buildDict {low : List QueueItem} {x : QueueItem}
    (h : x ∈ buildDict low) : x ∈ low := by
  unfold buildDict at h
  suffices hgen : ∀ acc, x ∈ List.foldl dictInsert acc low → x ∈ acc ∨ x ∈ low by
    rcases hgen [] h with h1 | h2
    · simp at h1
    · exact h2
  clear h
  induction low with
  | nil =>
    intro acc h
    exact Or.inl h
  | cons y rest ih =>
    intro acc h
    simp only [List.foldl_cons] at h
    rcases ih (dictInsert acc y) h with h1 | h2
    · rcases mem_dictInsert h1 with h3 | h4
      · exact Or.inl h3
      · exact Or.inr (by simp [h4])
    · exact Or.inr (by simp [h2])

theorem mem_pickOrder {x : QueueItem} :
    ∀ (o : List String) (m : List QueueItem),
      (x ∈ (pickOrder o m).1 → x ∈ m) ∧ (x ∈ (pickOrder o m).2 → x ∈ m) := by
  intro o
  induction o with
  | nil =>
    intro m
    exact ⟨fun h => by simp [pickOrder] at h, fun h => by simpa [pickOrder] using h⟩
  | cons oid rest ih =>
    intro m
    simp only [pickOrder]
    cases hf : m.find? (fun y => y.id == oid) with
    | none => exact ih m
    | some z =>
      constructor
      · intro h
        simp only [List.mem_cons] at h
        rcases h with h1 | h2
        · subst h1
          exact List.mem_of_find?_eq_some hf
        · exact List.mem_of_mem_filter ((ih (m.filter (fun y => y.id != oid))).1 h2)
      · intro h
        exact List.mem_of_mem_filter ((ih (m.filter (fun y => y.id != oid))).2 h)

theorem wellShaped_reorder {q : List QueueItem} (order : List String)
    (h : wellShaped q = true) :
    wellShaped (queue_reorder_queue q order) = true := by
  unfold queue_reorder_queue
  have hP : ∀ x ∈ q.filter (fun x => x.status == "played"), (x.status == "played") = true := by
    intro x hx
    exact (List.mem_filter.mp hx).2
  have hA := wellShaped_active h
  have hS : ∀ x ∈ (pickOrder order (buildDict ((q.filter (fun x => x.status != "played")).drop 3))).1
        ++ (pickOrder order (buildDict ((q.filter (fun x => x.status != "played")).drop 3))).2,
      isTail x.status = true := by
    intro x hx
    have hx2 : x ∈ (q.filter (fun x => x.status != "played")).drop 3 := by
      rcases List.mem_append.mp hx with h1 | h2
      · exact mem_buildDict ((mem_pickOrder order _).1 h1)
      · exact mem_buildDict ((mem_pickOrder order _).2 h2)
    exact activeOk_drop_tail hA x hx2
  rw [List.append_assoc]
  rw [wellShaped_append_played hP]
  exact shape_core hA hS

theorem wellShaped_remove {q : List QueueItem} (itemId : Option String)
    (h : wellShaped q = true) :
    wellShaped (queue_remove_queue q itemId) = true :=
  wellShaped_sublist (List.filter_sublist q) h

theorem wellShaped_add {q : List QueueItem} (h : wellShaped q = true)
    (fid title source url uid uname : String) (sc : Option String) :
    wellShaped (q ++ [mk_queue_add_item fid title source url uid uname sc]) = true :=
  wellShaped_snoc_tail h (by
    rw [show (mk_queue_add_item fid title source url uid uname sc).status = "pending" from rfl]
    decide)

theorem wellShaped_approve {q : List QueueItem} (h : wellShaped q = true)
    (fid : String) (s : Suggestion) :
    wellShaped (q ++ [mk_approved_item fid s]) = true :=
  wellShaped_snoc_tail h (by
    rw [show (mk_approved_item fid s).status = "pending" from rfl]
    decide)

theorem tailOk_ptShaped {l : List QueueItem} (h : tailOk l = true) : ptShaped l = true := by
  cases l with
  | nil => rfl
  | cons i rest =>
    have hi := tailOk_iff.mp h i (by simp)
    simp only [ptShaped, isTail_ne_played hi, Bool.false_eq_true, if_false]
    exact h

theorem wellShaped_ptShaped_markPlayed {q : List QueueItem} (h : wellShaped q = true) :
    ptShaped (markPlayed q) = true := by
  induction q with
  | nil => rfl
  | cons i rest ih =>
    by_cases h1 : (i.status == "played") = true
    · have hws : wellShaped rest = true := by simpa only [wellShaped, h1, if_true] using h
      have hnp : (i.status == "playing") = false := by
        have heq : i.status = "played" := by simpa using h1
        rw [heq]; decide
      simp only [markPlayed, hnp, Bool.false_eq_true, if_false, ptShaped, h1, if_true]
      exact ih hws
    · have h1f : (i.status == "played") = false := Bool.eq_false_iff.mpr h1
      by_cases h2 : (i.status == "playing") = true
      · have htail : tailOk rest = true := by
          simpa only [wellShaped, h1f, h2, Bool.false_eq_true, if_false, if_true] using h
        simp only [markPlayed, h2, if_true, ptShaped,
          show ({ i with status := "played" } : QueueItem).status = "played" from rfl,
          show (("played" : String) == "played") = true from rfl, if_true]
        exact tailOk_ptShaped htail
      · have h2f : (i.status == "playing") = false := Bool.eq_false_iff.mpr h2
        have hpair : isTail i.status = true ∧ tailOk rest = true := by
          have := h
          simp only [wellShaped, h1f, h2f, Bool.false_eq_true, if_false,
            Bool.and_eq_true] at this
          exact this
        have hmk : markPlayed rest = rest := markPlayed_of_no_playing (fun x hx => by
          have hb := isTail_ne_playing (tailOk_iff.mp hpair.2 x hx)
          exact beq_eq_false_iff_ne.mp hb)
        simp only [markPlayed, h2f, Bool.false_eq_true, if_false, hmk, ptShaped, h1f]
        exact tailOk_iff.mpr (by
          intro x hx
          rcases List.mem_cons.mp hx with hx1 | hx2
          · subst hx1; exact hpair.1
          · exact tailOk_iff.mp hpair.2 x hx2)

theorem advanceGuard_cons_rp {i : QueueItem} {rest : List QueueItem}
    (h : (i.status == "ready" || i.status == "pending") = true) :
    advanceGuard (i :: rest) = true := by
  unfold advanceGuard
  simp only [List.takeWhile_cons, h, Bool.not_true, Bool.false_eq_true, if_false, List.all_nil]

theorem advanceGuard_cons_nrp {i : QueueItem} {rest : List QueueItem}
    (h : (i.status == "ready" || i.status == "pending") = false) :
    advanceGuard (i :: rest) = ((i.status != "analyzing") && advanceGuard rest) := by
  unfold advanceGuard
  simp only [List.takeWhile_cons, h, Bool.not_false, if_true, List.all_cons]

theorem advanceGuard_markPlayed {q : List QueueItem} (h : advanceGuard q = true) :
    advanceGuard (markPlayed q) = true := by
  induction q with
  | nil => rfl
  | cons i rest ih =>
    by_cases h2 : (i.status == "playing") = true
    · have heq : i.status = "playing" := by simpa using h2
      have hnrp : (i.status == "ready" || i.status == "pending") = false := by rw [heq]; decide
      rw [advanceGuard_cons_nrp hnrp] at h
      simp only [Bool.and_eq_true] at h
      rcases h with ⟨_, hrest⟩
      simp only [markPlayed, h2, if_true]
      rw [advanceGuard_cons_nrp (by
        rw [show ({ i with status := "played" } : QueueItem).status = "played" from rfl]
        decide)]
      rw [show (({ i with status := "played" } : QueueItem).status != "analyzing") = true from rfl]
      simpa using hrest
    · have hb : (i.status == "playing") = false := Bool.eq_false_iff.mpr h2
      simp only [markPlayed, hb, Bool.false_eq_true, if_false]
      by_cases hrp : (i.status == "ready" || i.status == "pending") = true
      · exact advanceGuard_cons_rp hrp
      · have hrpf : (i.status == "ready" || i.status == "pending") = false :=
          Bool.eq_false_iff.mpr hrp
        rw [advanceGuard_cons_nrp hrpf] at h ⊢
        simp only [Bool.and_eq_true] at h
        rcases h with ⟨h3, h4⟩
        simp [h3, ih h4]

theorem ptShaped_promote {l : List QueueItem} (hp : ptShaped l = true)
    (hg : advanceGuard l = true) : wellShaped (promoteNext l).1 = true := by
  induction l with
  | nil => rfl
  | cons i rest ih =>
    by_cases hrp : (i.status == "ready" || i.status == "pending") = true
    · simp only [promoteNext, hrp, if_true]
      have hne : (i.status == "played") = false := by
        have hrp2 := hrp
        simp only [Bool.or_eq_true] at hrp2
        rcases hrp2 with h1 | h1
        · rw [beq_iff_eq.mp h1]; decide
        · rw [beq_iff_eq.mp h1]; decide
      have htail : tailOk (i :: rest) = true := by
        simpa only [ptShaped, hne, Bool.false_eq_true, if_false] using hp
      have htail2 : tailOk rest = true :=
        tailOk_iff.mpr (fun x hx => tailOk_iff.mp htail x (by simp [hx]))
      simp only [wellShaped,
        show ({ i with status := "playing" } : QueueItem).status = "playing" from rfl,
        show (("playing" : String) == "played") = false from rfl,
        show (("playing" : String) == "playing") = true from rfl,
        Bool.false_eq_true, if_false, if_true]
      exact htail2
    · have hrpf : (i.status == "ready" || i.status == "pending") = false :=
        Bool.eq_false_iff.mpr hrp
      simp only [promoteNext, hrpf, Bool.false_eq_true, if_false]
      by_cases h1 : (i.status == "played") = true
      · have hp2 : ptShaped rest = true := by simpa only [ptShaped, h1, if_true] using hp
        rw [advanceGuard_cons_nrp hrpf] at hg
        simp only [Bool.and_eq_true] at hg
        rcases hg with ⟨_, hg2⟩
        simp only [wellShaped, h1, if_true]
        exact ih hp2 hg2
      · have h1f : (i.status == "played") = false := Bool.eq_false_iff.mpr h1
        have htail : tailOk (i :: rest) = true := by
          simpa only [ptShaped, h1f, Bool.false_eq_true, if_false] using hp
        have hit : isTail i.status = true := tailOk_iff.mp htail i (by simp)
        have han : i.status = "analyzing" := by
          rcases isTail_cases hit with hh | hh | hh
          · exfalso; rw [hh] at hrpf; simp at hrpf
          · exfalso; rw [hh] at hrpf; simp at hrpf
          · exact hh
        rw [advanceGuard_cons_nrp hrpf] at hg
        simp only [Bool.and_eq_true] at hg
        rcases hg with ⟨hg1, _⟩
        rw [han] at hg1
        exact absurd hg1 (by decide)

theorem wellShaped_advance {q : List QueueItem} (h : wellShaped q = true)
    (hg : advanceGuard q = true) : wellShaped (queue_advance_queue q).1 = true := by
  unfold queue_advance_queue
  exact ptShaped_promote (wellShaped_ptShaped_markPlayed h) (advanceGuard_markPlayed hg)

theorem foldl_dictInsert_append (low : List QueueItem) :
    ∀ acc : List QueueItem,
      (((acc ++ low).map (fun x => x.id)).Nodup) →
      List.foldl dictInsert acc low = acc ++ low := by
  induction low with
  | nil =>
    intro acc _
    simp
  | cons y rest ih =>
    intro acc hnd
    have hyn : y.id ∉ acc.map (fun x => x.id) := by
      intro hmem
      have hnd2 : (acc.map (fun x => x.id) ++ (y.id :: rest.map (fun x => x.id))).Nodup := by
        simpa using hnd
      exact List.disjoint_of_nodup_append hnd2 hmem (by simp)
    have hnotin : (acc.any (fun p => p.id == y.id)) = false := by
      refine Bool.eq_false_iff.mpr ?_
      intro hany
      rcases List.any_eq_true.mp hany with ⟨p, hp, hpy⟩
      have hpe : p.id = y.id := by simpa using hpy
      exact hyn (hpe ▸ List.mem_map_of_mem (fun x => x.id) hp)
    have hins : dictInsert acc y = acc ++ [y] := by
      unfold dictInsert
      rw [hnotin]
      simp
    simp only [List.foldl_cons, hins]
    have hnd3 : (((acc ++ [y]) ++ rest).map (fun x => x.id)).Nodup := by
      rw [List.append_assoc]
      simpa using hnd
    have := ih (acc ++ [y]) hnd3
    rw [this, List.append_assoc]
    simp

theorem buildDict_nodup {low : List QueueItem}
    (h : (low.map (fun x => x.id)).Nodup) : buildDict low = low := by
  unfold buildDict
  have := foldl_dictInsert_append low [] (by simpa using h)
  simpa using this

theorem find?_filter_ne {m : List QueueItem} {oid oid2 : String} (hne : oid2 ≠ oid) :
    (m.filter (fun y => y.id != oid)).find? (fun y => y.id == oid2) =
      m.find? (fun y => y.id == oid2) := by
  induction m with
  | nil => rfl
  | cons z rest ih =>
    by_cases hz : (z.id == oid2) = true
    · have hzeq : z.id = oid2 := by simpa using hz
      have hkeep : (z.id != oid) = true := by
        rw [hzeq]
        simpa [bne] using hne
      simp only [List.filter_cons, hkeep, if_true, List.find?, hz]
    · have hzf : (z.id == oid2) = false := Bool.eq_false_iff.mpr hz
      by_cases hk : (z.id != oid) = true
      · simp only [List.filter_cons, hk, if_true, List.find?, hzf]
        exact ih
      · have hkf : (z.id != oid) = false := Bool.eq_false_iff.mpr hk
        simp only [List.filter_cons, hkf, Bool.false_eq_true, if_false, List.find?, hzf]
        exact ih

theorem pickOrder_spec :
    ∀ (o : List String) (m : List QueueItem), o.Nodup → ((m.map (fun x => x.id)).Nodup) →
      pickOrder o m =
        (o.filterMap (fun oid => m.find? (fun y => y.id == oid)),
         m.filter (fun x => !(o.contains x.id))) := by
  intro o
  induction o with
  | nil =>
    intro m _ _
    simp only [pickOrder, List.filterMap_nil]
    have hall : m.filter (fun x => !(([] : List String).contains x.id)) = m := by
      rw [List.filter_eq_self]
      intro x _
      simp
    rw [hall]
  | cons oid rest ih =>
    intro m hno hnm
    have hno2 : rest.Nodup := (List.nodup_cons.mp hno).2
    have hoidr : oid ∉ rest := (List.nodup_cons.mp hno).1
    simp only [pickOrder]
    cases hf : m.find? (fun y => y.id == oid) with
    | none =>
      have hnone : ∀ x ∈ m, (x.id == oid) = false := by
        intro x hx
        exact Bool.eq_false_iff.mpr (List.find?_eq_none.mp hf x hx)
      rw [ih m hno2 hnm]
      simp only [Prod.mk.injEq]
      constructor
      · simp only [List.filterMap_cons, hf]
      · refine List.filter_congr ?_
        intro x hx
        have hxe : ¬ x.id = oid := by simpa using hnone x hx
        simp [List.contains_cons, hxe]
    | some z =>
      have hsub : List.Sublist (m.filter (fun y => y.id != oid)) m := List.filter_sublist m
      have hm2 : ((m.filter (fun y => y.id != oid)).map (fun x => x.id)).Nodup :=
        List.Nodup.sublist (hsub.map (fun x => x.id)) hnm
      rw [ih (m.filter (fun y => y.id != oid)) hno2 hm2]
      simp only [Prod.mk.injEq]
      constructor
      · simp only [List.filterMap_cons, hf]
        congr 1
        refine List.filterMap_congr ?_
        intro oid2 hmem
        exact find?_filter_ne (fun hcon => hoidr (hcon ▸ hmem))
      · rw [List.filter_filter]
        refine List.filter_congr ?_
        intro x hx
        cases hc1 : (x.id == oid) <;> cases hc2 : rest.contains x.id <;>
          simp_all [List.contains_cons, bne]

theorem upToNonPlayed_append_played {l : List QueueItem} {k : Nat} {P : List QueueItem}
    (hp : ∀ x ∈ P, (x.status == "played") = true) :
    upToNonPlayed k (P ++ l) = P ++ upToNonPlayed k l := by
  induction P with
  | nil => rfl
  | cons i rest ih =>
    have hi := hp i (by simp)
    simp only [List.cons_append, upToNonPlayed, hi, if_true, List.append_eq]
    rw [ih (fun x hx => hp x (by simp [hx]))]

theorem upToNonPlayed_append_nonplayed (S : List QueueItem) (k : Nat) {A : List QueueItem}
    (hA : ∀ x ∈ A, (x.status == "played") = false)
    (hk1 : 1 ≤ k) (hk2 : k ≤ A.length) :
    upToNonPlayed k (A ++ S) = A.take k := by
  induction A generalizing k with
  | nil =>
    exfalso
    simp at hk2
    omega
  | cons i rest ih =>
    have hi := hA i (by simp)
    cases k with
    | zero => omega
    | succ n =>
      cases n with
      | zero =>
        simp only [List.cons_append, upToNonPlayed, hi, Bool.false_eq_true, if_false,
          List.append_eq]
        rw [if_pos (by omega)]
        simp
      | succ n2 =>
        simp only [List.cons_append, upToNonPlayed, hi, Bool.false_eq_true, if_false,
          List.append_eq]
        rw [if_neg (by omega)]
        have hlen : n2 + 1 ≤ rest.length := by
          simp at hk2
          omega
        have hrec := ih (n2 + 1) (fun x hx => hA x (by simp [hx])) (by omega) hlen
        simp only [Nat.add_sub_cancel]
        rw [hrec]
        simp [List.take]

theorem upToNonPlayed_short (k : Nat) {A : List QueueItem}
    (hA : ∀ x ∈ A, (x.status == "played") = false) (hk : A.length < k) :
    upToNonPlayed k A = A := by
  induction A generalizing k with
  | nil => rfl
  | cons i rest ih =>
    have hi := hA i (by simp)
    have hlen : rest.length + 1 < k := by simpa using hk
    simp only [upToNonPlayed, hi, Bool.false_eq_true, if_false]
    rw [if_neg (by omega)]
    rw [ih (k - 1) (fun x hx => hA x (by simp [hx])) (by omega)]

/-- C6 amended: on a queue whose played items form a prefix (the shape
invariant) and whose item ids are distinct (as minted), with a duplicate
free reorder list: the reordered queue is exactly the prefix up through
the third non-played item, then the suffix items whose ids appear in the
requested order in that order, then the unmentioned suffix items in their
original relative order; in particular the prefix up through the third
non-played item is unchanged, so ids naming protected items have no
effect on them. -/
theorem c6_reorder_spec (q : List QueueItem) (order : List String)
    (h : wellShaped q = true)
    (hq : (q.map (fun x => x.id)).Nodup)
    (ho : order.Nodup) :
    queue_reorder_queue q order =
      upToNonPlayed 3 q
      ++ (order.filterMap (fun oid =>
            ((q.filter (fun x => x.status != "played")).drop 3).find? (fun y => y.id == oid))
          ++ ((q.filter (fun x => x.status != "played")).drop 3).filter
               (fun x => !(order.contains x.id)))
    ∧ upToNonPlayed 3 (queue_reorder_queue q order) = upToNonPlayed 3 q := by
  have hP : ∀ x ∈ q.filter (fun x => x.status == "played"), (x.status == "played") = true :=
    fun x hx => (List.mem_filter.mp hx).2
  have hAnp : ∀ x ∈ q.filter (fun x => x.status != "played"), (x.status == "played") = false := by
    intro x hx
    have hb := (List.mem_filter.mp hx).2
    simpa [bne] using hb
  have hsubA : List.Sublist (q.filter (fun x => x.status != "played")) q := List.filter_sublist q
  have hsublow : List.Sublist ((q.filter (fun x => x.status != "played")).drop 3)
      (q.filter (fun x => x.status != "played")) := List.drop_sublist 3 _
  have hlowN : (((q.filter (fun x => x.status != "played")).drop 3).map (fun x => x.id)).Nodup :=
    List.Nodup.sublist ((hsublow.trans hsubA).map (fun x => x.id)) hq
  have hres : queue_reorder_queue q order =
      (q.filter (fun x => x.status == "played")
       ++ (q.filter (fun x => x.status != "played")).take 3)
      ++ (order.filterMap (fun oid =>
            ((q.filter (fun x => x.status != "played")).drop 3).find? (fun y => y.id == oid))
          ++ ((q.filter (fun x => x.status != "played")).drop 3).filter
               (fun x => !(order.contains x.id))) := by
    simp only [queue_reorder_queue]
    rw [buildDict_nodup hlowN, pickOrder_spec order _ ho hlowN]
  have hPA : q.filter (fun x => x.status == "played")
      ++ (q.filter (fun x => x.status != "played")).take 3 = upToNonPlayed 3 q := by
    conv_rhs => rw [← wellShaped_decomp h]
    rw [upToNonPlayed_append_played hP]
    by_cases hlen : 3 ≤ (q.filter (fun x => x.status != "played")).length
    · have h2 := upToNonPlayed_append_nonplayed ([] : List QueueItem) 3 hAnp (by omega) hlen
      rw [List.append_nil] at h2
      rw [h2]
    · have h2 := upToNonPlayed_short 3 hAnp (by omega)
      rw [h2, List.take_of_length_le (by omega)]
  constructor
  · rw [hres, hPA]
  · by_cases hlen : 3 ≤ (q.filter (fun x => x.status != "played")).length
    · rw [hres, List.append_assoc]
      rw [upToNonPlayed_append_played hP]
      have htknp : ∀ x ∈ (q.filter (fun x => x.status != "played")).take 3,
          (x.status == "played") = false :=
        fun x hx => hAnp x (List.take_subset _ _ hx)
      have hlen3 : ((q.filter (fun x => x.status != "played")).take 3).length = 3 := by
        rw [List.length_take]
        omega
      have h2 := upToNonPlayed_append_nonplayed
        (order.filterMap (fun oid =>
            ((q.filter (fun x => x.status != "played")).drop 3).find? (fun y => y.id == oid))
          ++ ((q.filter (fun x => x.status != "played")).drop 3).filter
               (fun x => !(order.contains x.id)))
        3 htknp (by omega) (by omega)
      rw [h2, List.take_of_length_le (by omega), ← hPA]
    · have hdropnil : (q.filter (fun x => x.status != "played")).drop 3 = [] :=
        List.drop_eq_nil_of_le (by omega)
      have hfmnil : order.filterMap (fun oid =>
          (([] : List QueueItem)).find? (fun y => y.id == oid)) = [] := by
        induction order with
        | nil => rfl
        | cons a t iht => simp [List.filterMap_cons, iht]
      have htk : (q.filter (fun x => x.status != "played")).take 3
          = q.filter (fun x => x.status != "played") :=
        List.take_of_length_le (by omega)
      rw [hres, hdropnil, hfmnil, htk]
      simp only [List.filter_nil, List.append_nil]
      rw [wellShaped_decomp h]

-- ---------------------------------------------------------------------------
-- C5: queue shape invariant
-- ---------------------------------------------------------------------------

/-- C5 counterexample: queue_update_item accepts any status string from
the host, so a well-shaped queue of two pending items becomes pending
followed by played, which violates the shape
played* playing? (ready|pending|analyzing)*. -/
theorem c5_update_item_breaks_shape :
    wellShaped c5Queue = true
    ∧ queue_update_item_queue c5Queue (some "b") (some "played") none = c6BadQueue
    ∧ wellShaped c6BadQueue = false := by
  decide

/-- C5 amended: the shape played* playing? (ready|pending|analyzing)* is
preserved by queue_add, queue_remove, queue_reorder and a suggestion
approval on any well-shaped queue, and by queue_advance provided no
analyzing item sits before the first ready or pending item;
queue_update_item can break it (see the counterexample), and so can
queue_advance when an analyzing item precedes the promoted one. -/
theorem c5_shape_preservation (q : List QueueItem)
    (fid title source url uid uname : String) (sc : Option String)
    (itemId : Option String) (order : List String) (s : Suggestion)
    (h : wellShaped q = true) :
    wellShaped (q ++ [mk_queue_add_item fid title source url uid uname sc]) = true
    ∧ wellShaped (queue_remove_queue q itemId) = true
    ∧ wellShaped (queue_reorder_queue q order) = true
    ∧ wellShaped (q ++ [mk_approved_item fid s]) = true
    ∧ (advanceGuard q = true → wellShaped (queue_advance_queue q).1 = true) :=
  ⟨wellShaped_add h fid title source url uid uname sc,
   wellShaped_remove itemId h,
   wellShaped_reorder order h,
   wellShaped_approve h fid s,
   fun hg => wellShaped_advance h hg⟩

/-- C5 witness: the preservation theorem applied at the S4 queue. -/
theorem c5_shape_preservation_witness :
    wellShaped s4Queue = true
    ∧ advanceGuard s4Queue = true
    ∧ wellShaped (s4Queue ++ [mk_queue_add_item "g1" "T" "file" "" "h" "H" none]) = true
    ∧ wellShaped (queue_remove_queue s4Queue (some "E")) = true
    ∧ wellShaped (queue_reorder_queue s4Queue ["F", "D", "E"]) = true
    ∧ wellShaped (s4Queue ++ [mk_approved_item "g2" sampleSuggestion]) = true
    ∧ wellShaped (queue_advance_queue s4Queue).1 = true := by
  refine ⟨by decide, by decide, ?_, ?_, ?_, ?_, ?_⟩
  · exact (c5_shape_preservation s4Queue "g1" "T" "file" "" "h" "H" none (some "E")
      ["F", "D", "E"] sampleSuggestion (by decide)).1
  · exact (c5_shape_preservation s4Queue "g1" "T" "file" "" "h" "H" none (some "E")
      ["F", "D", "E"] sampleSuggestion (by decide)).2.1
  · exact (c5_shape_preservation s4Queue "g1" "T" "file" "" "h" "H" none (some "E")
      ["F", "D", "E"] sampleSuggestion (by decide)).2.2.1
  · exact (c5_shape_preservation s4Queue "g1" "T" "file" "" "h" "H" none (some "E")
      ["F", "D", "E"] sampleSuggestion (by decide)).2.2.2.1
  · exact (c5_shape_preservation s4Queue "g1" "T" "file" "" "h" "H" none (some "E")
      ["F", "D", "E"] sampleSuggestion (by decide)).2.2.2.2 (by decide)

-- ---------------------------------------------------------------------------
-- C6: queue_reorder
-- ---------------------------------------------------------------------------

/-- C6 counterexample: on the reachable queue pending a, played b
(produced from the well-shaped c5Queue by a queue_update_item), a reorder
moves the played item in front of the pending one, so the prefix of the
queue up through the third non-played item differs before and after. -/
theorem c6_reorder_moves_played_forward :
    queue_update_item_queue c5Queue (some "b") (some "played") none = c6BadQueue
    ∧ upToNonPlayed 3 c6BadQueue = c6BadQueue
    ∧ queue_reorder_queue c6BadQueue ["zzz"] = [sampleItem "b" "played", sampleItem "a" "pending"]
    ∧ ¬(upToNonPlayed 3 (queue_reorder_queue c6BadQueue ["zzz"]) = upToNonPlayed 3 c6BadQueue) := by
  decide

/-- C6 witness: the reorder theorem applied at scenario S4 with the order
F, D, E, together with the concrete expected outcome. -/
theorem c6_reorder_spec_witness :
    wellShaped s4Queue = true
    ∧ (s4Queue.map (fun x => x.id)).Nodup
    ∧ (["F", "D", "E"] : List String).Nodup
    ∧ (queue_reorder_queue s4Queue ["F", "D", "E"] =
        upToNonPlayed 3 s4Queue
        ++ ((["F", "D", "E"] : List String).filterMap (fun oid =>
              ((s4Queue.filter (fun x => x.status != "played")).drop 3).find?
                (fun y => y.id == oid))
            ++ ((s4Queue.filter (fun x => x.status != "played")).drop 3).filter
                 (fun x => !((["F", "D", "E"] : List String).contains x.id)))
        ∧ upToNonPlayed 3 (queue_reorder_queue s4Queue ["F", "D", "E"])
            = upToNonPlayed 3 s4Queue) :=
  ⟨by decide, by decide, by decide,
   c6_reorder_spec s4Queue ["F", "D", "E"] (by decide) (by decide) (by decide)⟩
